import Mathlib

/-!
# SFSU CS Chatbot: session store, feedback tracker, notification poller and review console

A shallow embedding of the client-side state handling in
`src/frontend/src/pages/StudentChat.jsx` and
`src/frontend/src/pages/ProfessorDashboard.jsx`, and of the request shapes of
`src/frontend/src/services/api.js`.

* `localStorage` is a map from keys to strings, modelled as a function
  `String → Option String` (`getItem` gives `null` for an absent key).
* JavaScript strings are Lean strings, that is sequences of Unicode scalar
  values; the numbers the program stores (`Date.now()`, log indices) are natural
  numbers.
* `JSON.parse` is a parser for the JSON grammar on the characters of the stored
  text; a number literal is given its exact rational value (the rounding to a
  double is not modelled). `JSON.stringify` is given for message logs.
* An `async` handler is split at its `await` into the part that runs when the
  handler is called and the part that runs when the awaited call settles; where
  nothing can happen in between, the handler is run to its end, with the way each
  awaited call settles as an input.
* What a handler does besides setting state (calls of the backend, alerts, error
  logs, navigation) is recorded as a list of effects, in order.

The definitions come first, the theorems after them.
-/

namespace StudentChat

/-! ## Browser storage -/

/-- The browser's `localStorage`: `none` is the `null` that `getItem` returns. -/
abbrev Storage := String → Option String

/-- An empty `localStorage`. -/
def Storage.empty : Storage := fun _ => none

/-- The call `localStorage.getItem(key)`. -/
def Storage.getItem (st : Storage) (key : String) : Option String := st key

/-- The call `localStorage.setItem(key, value)`. -/
def Storage.setItem (st : Storage) (key value : String) : Storage :=
  fun k => if k = key then some value else st k

/-- The call `localStorage.removeItem(key)`. -/
def Storage.removeItem (st : Storage) (key : String) : Storage :=
  fun k => if k = key then none else st k

/-! ## Numbers and strings of JavaScript -/

/-- The decimal digit character of `d < 10`. -/
def digitChar (d : Nat) : Char := Char.ofNat (48 + d)

/-- Digits of `n`, most significant first, put in front of `acc`; the fuel bounds
the number of digits. -/
def renderNatAux : Nat → Nat → List Char → List Char
  | 0, _, acc => acc
  | fuel + 1, n, acc =>
    if n < 10 then digitChar n :: acc
    else renderNatAux fuel (n / 10) (digitChar (n % 10) :: acc)

/-- The characters of `String(n)` for a non-negative integer `n`: its decimal
digits (what JavaScript prints for an integer below `10^21`). -/
def renderNat (n : Nat) : List Char := renderNatAux (n + 1) n []

/-- JavaScript `String(n)`, also the property key that `obj[n]` uses. -/
def jsString (n : Nat) : String := String.mk (renderNat n)

/-- JavaScript truthiness of a string: every string but the empty one. -/
def truthyStr (s : String) : Bool := decide (s ≠ "")

/-- A JavaScript value as `JSON.parse` builds it. The members of an object are
kept in the order of their first assignment. -/
inductive Json where
  | null : Json
  | bool (b : Bool) : Json
  | num (q : ℚ) : Json
  | str (s : String) : Json
  | arr (elems : List Json) : Json
  | obj (members : List (String × Json)) : Json

/-! ## The message log -/

/-- One entry of the message log: `{role, content, id?, error?}`. The `id` is the
`Date.now()` value given to an answer (line 169); `error` is the flag `error: true`
of the entry that is appended when the chat call fails (line 182). -/
structure Message where
  role : String
  content : String
  id : Option Nat := none
  error : Bool := false
  deriving DecidableEq

/-- The JavaScript value of a message, its properties in the order the code
writes them. -/
def Message.toJson (m : Message) : Json :=
  Json.obj ([("role", Json.str m.role), ("content", Json.str m.content)]
    ++ (match m.id with
        | some n => [("id", Json.num (n : ℚ))]
        | none => [])
    ++ (if m.error then [("error", Json.bool true)] else []))

/-- The JavaScript value of a message log: the array of its messages. -/
def logJson (log : List Message) : Json := Json.arr (log.map Message.toJson)

/-- Whether a JavaScript value is an array with at least one element. -/
def nonEmptyLog : Json → Bool
  | Json.arr (_ :: _) => true
  | _ => false

namespace JSON

/-! ## `JSON.parse` -/

/-- The blanks of JSON: space, tab, line feed and carriage return. -/
def isWs (c : Char) : Bool := c = ' ' || c = '\t' || c = '\n' || c = '\r'

/-- Drops the blanks at the front of the input. -/
def skipWs : List Char → List Char
  | [] => []
  | c :: cs => if isWs c then skipWs cs else c :: cs

/-- The value of a hexadecimal digit. -/
def hexVal (c : Char) : Option Nat :=
  if 48 ≤ c.toNat ∧ c.toNat ≤ 57 then some (c.toNat - 48)
  else if 97 ≤ c.toNat ∧ c.toNat ≤ 102 then some (c.toNat - 87)
  else if 65 ≤ c.toNat ∧ c.toNat ≤ 70 then some (c.toNat - 55)
  else none

/-- The code unit that a one-letter escape stands for. -/
def unescape (e : Char) : Option Nat :=
  if e = '\"' then some 34
  else if e = '\\' then some 92
  else if e = '/' then some 47
  else if e = 'b' then some 8
  else if e = 'f' then some 12
  else if e = 'n' then some 10
  else if e = 'r' then some 13
  else if e = 't' then some 9
  else none

/-- The body of a string literal after its opening quote, up to and including
the closing quote. A character written as itself gives its code point, an escape
the code unit it names; a control character below `0x20` is refused. -/
def parseStrBody : List Char → List Nat → Option (List Nat × List Char)
  | [], _ => none
  | c :: cs, acc =>
    if c = '\"' then some (acc.reverse, cs)
    else if c = '\\' then
      match cs with
      | [] => none
      | e :: cs1 =>
        if e = 'u' then
          match cs1 with
          | h1 :: h2 :: h3 :: h4 :: cs2 =>
            match hexVal h1, hexVal h2, hexVal h3, hexVal h4 with
            | some a, some b, some c, some d =>
              parseStrBody cs2 ((a * 4096 + b * 256 + c * 16 + d) :: acc)
            | _, _, _, _ => none
          | _ => none
        else
          match unescape e with
          | some u => parseStrBody cs1 (u :: acc)
          | none => none
    else if c.toNat < 32 then none
    else parseStrBody cs (c.toNat :: acc)

/-- The character of a code unit that is not part of a surrogate pair. A lone
surrogate, which a JavaScript string would keep as it is, becomes `U+FFFD`. -/
def unitChar (u : Nat) : Char :=
  if 0xD800 ≤ u ∧ u ≤ 0xDFFF then Char.ofNat 0xFFFD else Char.ofNat u

/-- The characters of a sequence of code units: a high surrogate and the low
surrogate after it make one character. -/
def decodeUnits : List Nat → List Char
  | [] => []
  | [u] => [unitChar u]
  | u :: v :: rest =>
    if 0xD800 ≤ u ∧ u ≤ 0xDBFF ∧ 0xDC00 ≤ v ∧ v ≤ 0xDFFF then
      Char.ofNat (0x10000 + (u - 0xD800) * 0x400 + (v - 0xDC00)) :: decodeUnits rest
    else unitChar u :: decodeUnits (v :: rest)

/-- A string literal after its opening quote. -/
def parseString (cs : List Char) : Option (String × List Char) :=
  match parseStrBody cs [] with
  | some (us, rest) => some (String.mk (decodeUnits us), rest)
  | none => none

/-- The decimal digits `0` to `9`. -/
def isDigit (c : Char) : Bool := decide (48 ≤ c.toNat) && decide (c.toNat ≤ 57)

/-- The number that a sequence of decimal digits writes. -/
def digitsVal (ds : List Char) : Nat :=
  ds.foldl (fun a c => 10 * a + (c.toNat - 48)) 0

/-- The digits at the front of the input, and what follows them. -/
def spanDigits : List Char → List Char × List Char
  | [] => ([], [])
  | c :: cs =>
    if isDigit c then ((spanDigits cs).1.cons c, (spanDigits cs).2) else ([], c :: cs)

/-- The integer part of a number: a single `0`, or a digit `1`-`9` and the digits
after it. -/
def parseInt : List Char → Option (Nat × List Char)
  | [] => none
  | d :: cs =>
    if d = '0' then some (0, cs)
    else if isDigit d then
      some (digitsVal (d :: (spanDigits cs).1), (spanDigits cs).2)
    else none

/-- The optional fraction: `.` and at least one digit. -/
def parseFrac : List Char → Option (ℚ × List Char)
  | [] => some (0, [])
  | c :: cs =>
    if c = '.' then
      match spanDigits cs with
      | ([], _) => none
      | (f :: fs, rest) => some ((digitsVal (f :: fs) : ℚ) / 10 ^ (f :: fs).length, rest)
    else some (0, c :: cs)

/-- The digits of an exponent, after its sign. -/
def parseExpDigits (cs : List Char) : Option (Nat × List Char) :=
  match spanDigits cs with
  | ([], _) => none
  | (d :: ds, rest) => some (digitsVal (d :: ds), rest)

/-- The optional exponent: `e` or `E`, an optional sign and at least one digit. -/
def parseExp : List Char → Option (ℤ × List Char)
  | [] => some (0, [])
  | c :: cs =>
    if c = 'e' ∨ c = 'E' then
      match cs with
      | [] => none
      | s :: cs1 =>
        if s = '-' then
          match parseExpDigits cs1 with
          | some (n, rest) => some (-(n : ℤ), rest)
          | none => none
        else if s = '+' then
          match parseExpDigits cs1 with
          | some (n, rest) => some ((n : ℤ), rest)
          | none => none
        else
          match parseExpDigits (s :: cs1) with
          | some (n, rest) => some ((n : ℤ), rest)
          | none => none
    else some (0, c :: cs)

/-- An unsigned number literal and its value. -/
def parseUnsigned (cs : List Char) : Option (ℚ × List Char) :=
  match parseInt cs with
  | none => none
  | some (ip, cs1) =>
    match parseFrac cs1 with
    | none => none
    | some (fr, cs2) =>
      match parseExp cs2 with
      | none => none
      | some (ex, cs3) => some (((ip : ℚ) + fr) * 10 ^ ex, cs3)

/-- A number literal: an optional minus sign and an unsigned literal. -/
def parseNumber : List Char → Option (ℚ × List Char)
  | [] => none
  | c :: cs =>
    if c = '-' then
      match parseUnsigned cs with
      | some (q, rest) => some (-q, rest)
      | none => none
    else parseUnsigned (c :: cs)

/-- Strips the characters of `lit` from the front of the input. -/
def dropLit : List Char → List Char → Option (List Char)
  | [], cs => some cs
  | _ :: _, [] => none
  | l :: ls, c :: cs => if c = l then dropLit ls cs else none

/-- The assignment `obj[key] = v` while an object is built: a repeated key keeps
its place and takes the later value. -/
def setMember : List (String × Json) → String → Json → List (String × Json)
  | [], key, v => [(key, v)]
  | (k, w) :: ms, key, v =>
    if k = key then (k, v) :: ms else (k, w) :: setMember ms key v

/-- A value that is not an array or an object: a string, `true`, `false`, `null`
or a number; `c` is the first character of the input and `cs` the rest. -/
def parseScalar (c : Char) (cs : List Char) : Option (Json × List Char) :=
  if c = '\"' then
    match parseString cs with
    | some (s, rest) => some (Json.str s, rest)
    | none => none
  else if c = 't' then
    match dropLit ['r', 'u', 'e'] cs with
    | some rest => some (Json.bool true, rest)
    | none => none
  else if c = 'f' then
    match dropLit ['a', 'l', 's', 'e'] cs with
    | some rest => some (Json.bool false, rest)
    | none => none
  else if c = 'n' then
    match dropLit ['u', 'l', 'l'] cs with
    | some rest => some (Json.null, rest)
    | none => none
  else
    match parseNumber (c :: cs) with
    | some (q, rest) => some (Json.num q, rest)
    | none => none

mutual
/-- A value at the front of the input (the blanks before it already dropped).
The fuel bounds the number of nested calls. -/
def parseValue : Nat → List Char → Option (Json × List Char)
  | 0, _ => none
  | _ + 1, [] => none
  | fuel + 1, c :: cs =>
    if c = '{' then
      match skipWs cs with
      | [] => none
      | d :: cs1 =>
        if d = '}' then some (Json.obj [], cs1)
        else parseMembers fuel (d :: cs1) []
    else if c = '[' then
      match skipWs cs with
      | [] => none
      | d :: cs1 =>
        if d = ']' then some (Json.arr [], cs1)
        else parseElems fuel (d :: cs1) []
    else parseScalar c cs
/-- The elements of an array after its `[`, up to and including its `]`. -/
def parseElems : Nat → List Char → List Json → Option (Json × List Char)
  | 0, _, _ => none
  | fuel + 1, cs, acc =>
    match parseValue fuel cs with
    | none => none
    | some (v, rest) =>
      match skipWs rest with
      | [] => none
      | c :: rest1 =>
        if c = ',' then parseElems fuel (skipWs rest1) (v :: acc)
        else if c = ']' then some (Json.arr (v :: acc).reverse, rest1)
        else none
/-- The members of an object after its `{`, up to and including its `}`. -/
def parseMembers : Nat → List Char → List (String × Json) → Option (Json × List Char)
  | 0, _, _ => none
  | _ + 1, [], _ => none
  | fuel + 1, q :: cs, acc =>
    if q = '\"' then
      match parseString cs with
      | none => none
      | some (key, rest) =>
        match skipWs rest with
        | [] => none
        | c :: rest1 =>
          if c = ':' then
            match parseValue fuel (skipWs rest1) with
            | none => none
            | some (v, rest2) =>
              match skipWs rest2 with
              | [] => none
              | e :: rest3 =>
                if e = ',' then parseMembers fuel (skipWs rest3) (setMember acc key v)
                else if e = '}' then some (Json.obj (setMember acc key v), rest3)
                else none
          else none
    else none
end

/-- The call `JSON.parse(text)`; `none` stands for the `SyntaxError` it throws.
Every nested call takes one unit of fuel and, together with the call it makes
next, reads at least one character, so twice the length of the text is enough. -/
def parse (text : String) : Option Json :=
  match parseValue (2 * text.length + 2) (skipWs text.data) with
  | some (v, rest) =>
    match skipWs rest with
    | [] => some v
    | _ :: _ => none
  | none => none

/-! ## `JSON.stringify` -/

/-- The hexadecimal digit (lower case) of `d < 16`. -/
def hexDigit (d : Nat) : Char := if d < 10 then Char.ofNat (48 + d) else Char.ofNat (87 + d)

/-- What `JSON.stringify` writes for one character of a string. -/
def quoteChar (c : Char) : List Char :=
  if c = '\"' then ['\\', '\"']
  else if c = '\\' then ['\\', '\\']
  else if c = '\x08' then ['\\', 'b']
  else if c = '\x0c' then ['\\', 'f']
  else if c = '\n' then ['\\', 'n']
  else if c = '\r' then ['\\', 'r']
  else if c = '\t' then ['\\', 't']
  else if c.toNat < 32 then
    ['\\', 'u', '0', '0', hexDigit (c.toNat / 16), hexDigit (c.toNat % 16)]
  else [c]

/-- The characters of a string between the quotes that `JSON.stringify` puts
around it. -/
def quoteChars : List Char → List Char
  | [] => []
  | c :: cs => quoteChar c ++ quoteChars cs

/-- The text of `JSON.stringify(s)` for a string `s`. -/
def quote (s : String) : List Char := '\"' :: (quoteChars s.data ++ ['\"'])

/-- The text of `JSON.stringify(m)` for a message `m`. -/
def stringifyMessage (m : Message) : List Char :=
  "\x7b\"role\":".data ++ quote m.role ++ ",\"content\":".data ++ quote m.content
    ++ (match m.id with
        | some n => ",\"id\":".data ++ renderNat n
        | none => [])
    ++ (if m.error then ",\"error\":true".data else [])
    ++ ['}']

/-- The texts of the messages of a log, separated by commas. -/
def stringifyElems : List Message → List Char
  | [] => []
  | [m] => stringifyMessage m
  | m :: m2 :: ms => stringifyMessage m ++ ',' :: stringifyElems (m2 :: ms)

/-- The call `JSON.stringify(messages)` for a message log. -/
def stringify (log : List Message) : String :=
  String.mk ('[' :: (stringifyElems log ++ [']']))

/-! ## Notions used in the proofs -/

/-- The decimal digits of `n`, most significant first, without fuel. -/
def digitsOf (n : Nat) : List Char :=
  if _h : n < 10 then [digitChar n] else digitsOf (n / 10) ++ [digitChar (n % 10)]
decreasing_by omega

/-- What may follow a number for the number to end there. -/
def endsNumber (rest : List Char) : Prop :=
  ∀ c tl, rest = c :: tl → isDigit c = false ∧ c ≠ '.' ∧ c ≠ 'e' ∧ c ≠ 'E'

/-- A parse that succeeds with some fuel reads at least one character, and
succeeds with the same result whenever the fuel is at least the number of
characters it reads. -/
def FuelFree {α : Type} (run : Nat → List Char → α → Option (Json × List Char))
    (f : Nat) : Prop :=
  ∀ cs a v rest, run f cs a = some (v, rest) →
    rest.length < cs.length
      ∧ ∀ g, cs.length - rest.length ≤ g → run g cs a = some (v, rest)

/-- The same for `parseValue`, which takes no accumulator. -/
def FuelFreeValue (f : Nat) : Prop :=
  ∀ cs v rest, parseValue f cs = some (v, rest) →
    rest.length < cs.length
      ∧ ∀ g, cs.length - rest.length ≤ g → parseValue g cs = some (v, rest)

end JSON

/-! ## Session store (`StudentChat.jsx`, lines 15-45 and 131-134) -/

/-- The identifier synthesised at line 19,
`session_${Date.now()}_${Math.random().toString(36).substr(2, 9)}`: `now` is the
value of `Date.now()` and `suffix` the text that
`Math.random().toString(36).substr(2, 9)` gave. -/
def mkSessionId (now : Nat) (suffix : String) : String :=
  "session_" ++ jsString now ++ "_" ++ suffix

/-- The function `getSessionId` (lines 15-23): the identifier it returns and the
storage it leaves. -/
def getSessionId (st : Storage) (now : Nat) (suffix : String) : String × Storage :=
  match st.getItem "chatSessionId" with
  | some sessionId =>
    if truthyStr sessionId then (sessionId, st)
    else (mkSessionId now suffix, st.setItem "chatSessionId" (mkSessionId now suffix))
  | none => (mkSessionId now suffix, st.setItem "chatSessionId" (mkSessionId now suffix))

/-- The text of the greeting that a chat without history starts from (line 40). -/
def greetingText : String :=
  "Hello! I\x27m **Alli**, your intelligent Gator Guide for SFSU! 🎓\n\nI can help you with:\n• Course requirements & descriptions\n• Faculty information\n• Financial aid & scholarships\n• International student services\n• Housing & campus resources\n\nWhat would you like to know?"

/-- The greeting message (lines 38-41). -/
def greetingMessage : Message := { role := "assistant", content := greetingText }

/-- The function `loadMessages` (lines 28-43). It returns the value that
`JSON.parse` gives for the stored text, whatever that value is, and the greeting
when there is no text to parse or the parse throws. -/
def loadMessages (st : Storage) (sid : String) : Json :=
  match st.getItem ("chatMessages_" ++ sid) with
  | some savedMessages =>
    if truthyStr savedMessages then
      match JSON.parse savedMessages with
      | some v => v
      | none => logJson [greetingMessage]
    else logJson [greetingMessage]
  | none => logJson [greetingMessage]

/-- The effect that saves the log (lines 132-134). -/
def saveMessages (st : Storage) (sessionId : String) (messages : List Message) : Storage :=
  st.setItem ("chatMessages_" ++ sessionId) (JSON.stringify messages)

/-! ## Component state and feedback tracker (lines 53, 218-250, 568-596) -/

/-- The two ratings of an answer. -/
inductive FeedbackType where
  | thumbs_up
  | thumbs_down
  deriving DecidableEq

/-- The body that `submitFeedback` posts to `/feedback` (`api.js`, lines 72-81). -/
structure FeedbackRequest where
  query : String
  response : String
  feedback_type : FeedbackType
  session_id : String
  message_id : String
  deriving DecidableEq

/-- A notification as `getNotifications` returns it (spec section 3; lines 812-848). -/
structure Notification where
  id : String
  title : String
  message : String
  is_read : Bool
  created_at : String
  correction_id : Option String := none
  deriving DecidableEq

/-- A correction record as `getCorrectionDetails` returns it (lines 896-951); a
missing or `null` field is `none`. -/
structure CorrectionDetails where
  student_query : String
  original_response : String
  status : String
  corrected_response : Option String := none
  reviewed_by : Option String := none
  reviewed_at : Option String := none
  deriving DecidableEq

/-- The state variables of the component that the handlers below read or write.
The object `feedbackGiven` maps a property key to the type recorded under it.
The variable `flaggedMessage` holds an object, which JavaScript compares by
identity: `flaggedIndex` is the position of that very object in `messages`, and
`none` when the object is not an entry of the log. The log changes by appends
only (lines 153, 167, 177), so an entry keeps its position. -/
structure ChatState where
  sessionId : String
  messages : List Message
  feedbackGiven : String → Option FeedbackType
  showWelcome : Bool
  suggestedQuestions : List String
  showFlagDialog : Bool := false
  flaggedMessage : Option Message := none
  flaggedIndex : Option Nat := none
  flagReason : String := ""
  notifications : List Notification := []
  unreadCount : Nat := 0
  input : String := ""
  loading : Bool := false
  viewingCorrection : Option String := none
  correctionDetails : Option CorrectionDetails := none

/-- The values the save effect depends on (`[messages, sessionId]`, line 134): the
effect runs again only after a render in which one of them changed. -/
def saveEffectDeps (σ : ChatState) : List Message × String := (σ.messages, σ.sessionId)

/-- The expression `message.id || index`: the id when it is truthy, that is
present and not `0`, and the index otherwise. -/
def idOrIndex (message : Message) (index : Nat) : Nat :=
  match message.id with
  | some id => if id ≠ 0 then id else index
  | none => index

/-- The expression `messages[index - 1]?.content || ''` (line 225). -/
def userQueryAt (messages : List Message) (index : Nat) : String :=
  match index with
  | 0 => ""
  | i + 1 =>
    match messages[i]? with
    | some m => m.content
    | none => ""

/-- The part of `handleFeedback` before its `await` (lines 219-226): `none` when
the guard of line 222 returns, and otherwise the request given to `submitFeedback`. -/
def handleFeedbackStart (σ : ChatState) (message : Message) (index : Nat)
    (feedbackType : FeedbackType) : Option FeedbackRequest :=
  if (σ.feedbackGiven (jsString (idOrIndex message index))).isSome then none
  else some
    { query := userQueryAt σ.messages index
      response := message.content
      feedback_type := feedbackType
      session_id := σ.sessionId
      message_id := jsString (idOrIndex message index) }

/-- The part of `handleFeedback` after its `await` (lines 228-235), run on the state
of that moment: when the call succeeded the updater of `setFeedbackGiven` writes the
type under the key, when it failed the error is only logged. -/
def handleFeedbackSettle (σ : ChatState) (messageId : Nat) (feedbackType : FeedbackType)
    (ok : Bool) : ChatState :=
  if ok then
    { σ with feedbackGiven := fun k =>
        if k = jsString messageId then some feedbackType else σ.feedbackGiven k }
  else σ

/-- A call of `handleFeedback` whose `submitFeedback` call settles before anything
else happens; `ok` tells whether that call succeeded. Returns the new state and the
requests issued. -/
def handleFeedback (σ : ChatState) (message : Message) (index : Nat)
    (feedbackType : FeedbackType) (ok : Bool) : ChatState × List FeedbackRequest :=
  match handleFeedbackStart σ message index feedbackType with
  | none => (σ, [])
  | some request =>
    (handleFeedbackSettle σ (idOrIndex message index) feedbackType ok, [request])

/-- What the feedback buttons read (lines 571-595): `feedbackGiven[message.id || index]`. -/
def feedbackShown (σ : ChatState) (message : Message) (index : Nat) : Option FeedbackType :=
  σ.feedbackGiven (jsString (idOrIndex message index))

/-- A `submitFeedback` call that has not settled yet, with what its handler captured. -/
structure PendingFeedback where
  messageId : Nat
  feedbackType : FeedbackType

/-- A session run: the component state, the calls in flight and the requests sent. -/
structure FeedbackRun where
  state : ChatState
  pending : List PendingFeedback
  sent : List FeedbackRequest

/-- What happens in a session run: a click on a feedback button, or the settling of
the `n`-th call in flight. -/
inductive FeedbackEvent where
  | click (message : Message) (index : Nat) (feedbackType : FeedbackType)
  | settle (n : Nat) (ok : Bool)

/-- One event of a session run. -/
def FeedbackRun.step (r : FeedbackRun) : FeedbackEvent → FeedbackRun
  | FeedbackEvent.click message index feedbackType =>
    match handleFeedbackStart r.state message index feedbackType with
    | none => r
    | some request =>
      { r with
        pending := r.pending ++ [⟨idOrIndex message index, feedbackType⟩]
        sent := r.sent ++ [request] }
  | FeedbackEvent.settle n ok =>
    match r.pending[n]? with
    | none => r
    | some p =>
      { state := handleFeedbackSettle r.state p.messageId p.feedbackType ok
        pending := r.pending.eraseIdx n
        sent := r.sent }

/-- A sequence of events of a session run. -/
def FeedbackRun.run (r : FeedbackRun) (events : List FeedbackEvent) : FeedbackRun :=
  events.foldl FeedbackRun.step r

/-- The handler `startNewChat` (lines 238-250) up to the page reload: the storage
and the state it leaves. -/
def startNewChat (st : Storage) (σ : ChatState) : Storage × ChatState :=
  ((st.removeItem ("chatMessages_" ++ σ.sessionId)).removeItem "chatSessionId",
    { σ with feedbackGiven := fun _ => none, showWelcome := true, suggestedQuestions := [] })

/-- The handlers and the buttons use the property key `String(k)` for a message:
the buttons read it, the guard of `handleFeedback` looks it up, the request carries
it as `message_id`, and a successful call records under it. -/
def usesKey (σ : ChatState) (message : Message) (index : Nat) (feedbackType : FeedbackType)
    (k : Nat) : Prop :=
  feedbackShown σ message index = σ.feedbackGiven (jsString k)
  ∧ (handleFeedbackStart σ message index feedbackType = none
      ↔ (σ.feedbackGiven (jsString k)).isSome = true)
  ∧ ∀ request, handleFeedbackStart σ message index feedbackType = some request →
      request.message_id = jsString k
      ∧ (handleFeedback σ message index feedbackType true).1.feedbackGiven (jsString k)
          = some feedbackType

/-! ## Example data -/

/-- An answer without an id. -/
def demoAnswer : Message := { role := "assistant", content := "CS 665 is a graduate course." }

/-- An answer whose id is the number `0`. -/
def zeroIdAnswer : Message :=
  { role := "assistant", content := "CS 665 is a graduate course.", id := some 0 }

/-- A component state: a greeting, a question and an answer, no feedback given. -/
def demoState : ChatState :=
  { sessionId := "session_1700000000000_k3x9q2m1z"
    messages := [greetingMessage, { role := "user", content := "Tell me about CS 665" }, demoAnswer]
    feedbackGiven := fun _ => none
    showWelcome := false
    suggestedQuestions := [] }

/-- The storage that goes with `demoState`. -/
def demoStorage : Storage :=
  saveMessages (Storage.empty.setItem "chatSessionId" demoState.sessionId)
    demoState.sessionId demoState.messages

/-- The state `demoState` after `thumbs_up` was recorded for the message with id `42`. -/
def ratedState : ChatState :=
  { demoState with
    feedbackGiven := fun k => if k = "42" then some FeedbackType.thumbs_up else none }

/-! ## Calls, failures and what a handler leaves behind -/

/-- A failed call: the error that the `await` throws. `message` is
`error.message`; `status`, `error` and `detail` are `error.response?.status`,
`error.response?.data?.error` and `error.response?.data?.detail`, `none` where
the response or the field is missing. -/
structure ApiError where
  message : String
  status : Option Nat := none
  error : Option String := none
  detail : Option String := none
  deriving DecidableEq

/-- The expression `a || b` for a string `a` that may be missing: `a` when it is
truthy, that is present and not empty, and `b` otherwise. -/
def jsOrStr (a : Option String) (b : String) : String :=
  match a with
  | some s => if truthyStr s then s else b
  | none => b

/-- The two dispositions of a review. -/
inductive ReviewAction where
  | approve
  | reject
  deriving DecidableEq

/-- The request of `reviewCorrection` (`api.js`, lines 88-94): a post to
`/professor/corrections/${correctionId}/review` with the body
`{action, corrected_response}`; `none` is the value `null`. -/
structure ReviewRequest where
  correctionId : String
  action : ReviewAction
  corrected_response : Option String
  deriving DecidableEq

/-- What a handler does besides setting state: the calls of `api.js` it issues,
and what it shows, logs or navigates to. -/
inductive Effect where
  | chat (query : String) (history : List (String × String)) (sessionId : String)
  | flagIncorrect (query response reason sessionId : String)
  | submitFeedback (request : FeedbackRequest)
  | getNotifications (sessionId : String)
  | markNotificationAsRead (notificationId : String)
  | markAllNotificationsAsRead (sessionId : String)
  | getCorrectionDetails (correctionId : String)
  | getPendingCorrections
  | reviewCorrection (request : ReviewRequest)
  | getStats
  | getTrendingQuestions (limit days : Nat)
  | alert (text : String)
  | consoleError (text : String)
  | navigate (path : String)
  deriving DecidableEq

/-- Whether an effect is a message put before the user (an `alert`). -/
def Effect.isAlert : Effect → Bool
  | Effect.alert _ => true
  | _ => false

/-- Whether an effect is a `getNotifications` call. -/
def Effect.isGetNotifications : Effect → Bool
  | Effect.getNotifications _ => true
  | _ => false

/-- The review request of an effect, when the effect is a `reviewCorrection` call. -/
def Effect.reviewRequest : Effect → Option ReviewRequest
  | Effect.reviewCorrection request => some request
  | _ => none

/-- Whether an effect is a call of the backend. -/
def Effect.isCall : Effect → Bool
  | Effect.alert _ => false
  | Effect.consoleError _ => false
  | Effect.navigate _ => false
  | _ => true

/-- A handler run to its end: the state it leaves, its effects in order, and the
error with which its promise rejects (it throws to its caller), if it does. -/
structure Outcome (S : Type) where
  after : S
  effects : List Effect
  rejected : Option ApiError := none

/-! ## Notification poller (lines 55-56, 110-118, 140-145, 791-848) -/

/-- The data of a `getNotifications` response (`api.js`, lines 109-112); a
missing field is `none`. -/
structure NotificationsData where
  notifications : Option (List Notification) := none
  unread_count : Option Nat := none

/-- The call that `loadNotifications` issues before its `await` (line 112). -/
def loadNotificationsStart (σ : ChatState) : Effect := Effect.getNotifications σ.sessionId

/-- The part of `loadNotifications` after its `await` (lines 113-117), run on the
state of that moment: `data.notifications || []` and `data.unread_count || 0` are
stored when the call succeeded, and the error is logged when it failed. -/
def loadNotificationsSettle (σ : ChatState) (result : Except ApiError NotificationsData) :
    Outcome ChatState :=
  match result with
  | Except.ok data =>
    { after :=
        { σ with
          notifications :=
            match data.notifications with
            | some list => list
            | none => []
          unreadCount :=
            match data.unread_count with
            | some n => if n ≠ 0 then n else 0
            | none => 0 }
      effects := [] }
  | Except.error _ =>
    { after := σ, effects := [Effect.consoleError "Failed to load notifications:"] }

/-- A call of `loadNotifications` (lines 110-118) whose `getNotifications` call
settles with `result` before anything else happens. -/
def loadNotifications (σ : ChatState) (result : Except ApiError NotificationsData) :
    Outcome ChatState :=
  { after := (loadNotificationsSettle σ result).after
    effects := loadNotificationsStart σ :: (loadNotificationsSettle σ result).effects
    rejected := (loadNotificationsSettle σ result).rejected }

/-- The handler of `Mark read` (lines 840-843): `mark` is how the
`markNotificationAsRead` call settles and `fetch` how the `getNotifications` call
of the refetch settles, if it is issued. The handler has no `catch`: a failed call
rejects its promise. -/
def markReadClick (σ : ChatState) (notificationId : String) (mark : Except ApiError Unit)
    (fetch : Except ApiError NotificationsData) : Outcome ChatState :=
  match mark with
  | Except.error e =>
    { after := σ, effects := [Effect.markNotificationAsRead notificationId], rejected := some e }
  | Except.ok _ =>
    { after := (loadNotifications σ fetch).after
      effects := Effect.markNotificationAsRead notificationId :: (loadNotifications σ fetch).effects
      rejected := (loadNotifications σ fetch).rejected }

/-- The handler of `Mark all as read` (lines 793-796). -/
def markAllReadClick (σ : ChatState) (mark : Except ApiError Unit)
    (fetch : Except ApiError NotificationsData) : Outcome ChatState :=
  match mark with
  | Except.error e =>
    { after := σ, effects := [Effect.markAllNotificationsAsRead σ.sessionId], rejected := some e }
  | Except.ok _ =>
    { after := (loadNotifications σ fetch).after
      effects := Effect.markAllNotificationsAsRead σ.sessionId :: (loadNotifications σ fetch).effects
      rejected := (loadNotifications σ fetch).rejected }

/-- The poller of one chat view: the component state, the interval timers that
the browser holds, the id that the next `setInterval` returns, the timer id that
the cleanup of the polling effect has captured (`none` while the effect is not
set up), the number of `getNotifications` calls that have not settled, and the
effects so far. -/
structure PollerRun where
  state : ChatState
  timers : List Nat := []
  nextTimer : Nat := 0
  interval : Option Nat := none
  inFlight : Nat := 0
  effects : List Effect := []

/-- What happens to a poller: the polling effect runs (lines 142-143), the browser
fires an interval timer, a `getNotifications` call in flight settles, or the
cleanup of the effect runs (line 144). -/
inductive PollerEvent where
  | mount
  | tick (timer : Nat)
  | settle (result : Except ApiError NotificationsData)
  | cleanup

/-- One event of a poller. The browser fires only the timers it holds: a tick of
a timer that `clearInterval` has removed does nothing. -/
def PollerRun.step (r : PollerRun) : PollerEvent → PollerRun
  | PollerEvent.mount =>
    { r with
      effects := r.effects ++ [loadNotificationsStart r.state]
      inFlight := r.inFlight + 1
      timers := r.nextTimer :: r.timers
      interval := some r.nextTimer
      nextTimer := r.nextTimer + 1 }
  | PollerEvent.tick timer =>
    if timer ∈ r.timers then
      { r with
        effects := r.effects ++ [loadNotificationsStart r.state]
        inFlight := r.inFlight + 1 }
    else r
  | PollerEvent.settle result =>
    match r.inFlight with
    | 0 => r
    | n + 1 =>
      { r with
        state := (loadNotificationsSettle r.state result).after
        effects := r.effects ++ (loadNotificationsSettle r.state result).effects
        inFlight := n }
  | PollerEvent.cleanup =>
    match r.interval with
    | none => r
    | some timer => { r with timers := r.timers.filter (fun t => t ≠ timer), interval := none }

/-- A sequence of events of a poller. -/
def PollerRun.run (r : PollerRun) (events : List PollerEvent) : PollerRun :=
  events.foldl PollerRun.step r

/-- Whether an event issues a `getNotifications` call in the given poller. -/
def PollerRun.issues (r : PollerRun) : PollerEvent → Bool
  | PollerEvent.mount => true
  | PollerEvent.tick timer => decide (timer ∈ r.timers)
  | _ => false

/-- Whether, in a sequence of events, every event that issues a call happens while
no call is in flight: every fetch settles before the next one is issued. -/
def PollerRun.serialized : PollerRun → List PollerEvent → Bool
  | _, [] => true
  | r, e :: es => (!r.issues e || r.inFlight == 0) && PollerRun.serialized (r.step e) es

/-- The timers of a poller are ones that `setInterval` has handed out. -/
def PollerRun.WellFormed (r : PollerRun) : Prop :=
  (∀ t ∈ r.timers, t < r.nextTimer) ∧ ∀ t, r.interval = some t → t < r.nextTimer

/-! ## Flagging (lines 48-50, 190-210) -/

/-- The characters that `String.prototype.trim` strips: the white space and the
line terminators of ECMAScript. -/
def jsWhiteSpace (c : Char) : Bool :=
  c.toNat = 0x9 || c.toNat = 0xA || c.toNat = 0xB || c.toNat = 0xC || c.toNat = 0xD
    || c.toNat = 0x20 || c.toNat = 0xA0 || c.toNat = 0x1680
    || (decide (0x2000 ≤ c.toNat) && decide (c.toNat ≤ 0x200A))
    || c.toNat = 0x2028 || c.toNat = 0x2029 || c.toNat = 0x202F || c.toNat = 0x205F
    || c.toNat = 0x3000 || c.toNat = 0xFEFF

/-- The call `s.trim()`. -/
def jsTrim (s : String) : String :=
  String.mk ((s.data.dropWhile jsWhiteSpace).reverse.dropWhile jsWhiteSpace).reverse

/-- The expression `messages[messages.indexOf(flaggedMessage) - 1]?.content || ''`
(line 199). The call `indexOf` compares by identity: it gives the position of the
flagged object in the log, `flaggedIndex`, and `-1` when the object is not in the
log, in which case `messages[-2]` is `undefined` and the query is `''`. -/
def flaggedQuery (messages : List Message) (flaggedIndex : Option Nat) : String :=
  match flaggedIndex with
  | some index => userQueryAt messages index
  | none => ""

/-- The handler `handleFlag` (lines 190-193). Its argument is the object
`messages[index]` of the entry on which the button was rendered (line 617); the
handler stores that object, whose position in the log is `index`. -/
def handleFlag (σ : ChatState) (message : Message) (index : Nat) : ChatState :=
  { σ with flaggedMessage := some message, flaggedIndex := some index, showFlagDialog := true }

/-- A click on `Flag as incorrect` at the entry rendered at `index`: the button is
rendered for an assistant entry without the error flag (line 560) and calls
`handleFlag(message)` with the object `messages[index]` (line 617). -/
def flagClick (σ : ChatState) (index : Nat) : ChatState :=
  match σ.messages[index]? with
  | some message =>
    if message.role = "assistant" ∧ message.error = false then handleFlag σ message index
    else σ
  | none => σ

/-- The handler `submitFlag` (lines 195-210); `result` is how the `flagIncorrect`
call settles, if it is issued. Without a flagged message, reading
`flaggedMessage.content` throws inside the `try`, with the message of V8. -/
def submitFlag (σ : ChatState) (result : Except ApiError Unit) : Outcome ChatState :=
  if !truthyStr (jsTrim σ.flagReason) then { after := σ, effects := [] }
  else
    match σ.flaggedMessage with
    | none =>
      { after := σ
        effects :=
          [Effect.consoleError "Flag submission error:",
           Effect.consoleError "Error response:",
           Effect.alert ("Failed to submit flag: "
             ++ "Cannot read properties of null (reading \x27content\x27)")] }
    | some flagged =>
      match result with
      | Except.ok _ =>
        { after :=
            { σ with
              showFlagDialog := false, flagReason := "", flaggedMessage := none,
              flaggedIndex := none }
          effects :=
            [Effect.flagIncorrect (flaggedQuery σ.messages σ.flaggedIndex) flagged.content
               σ.flagReason σ.sessionId,
             Effect.alert ("Thank you! A professor will review this response. "
               ++ "You\x27ll be notified when it\x27s reviewed.")] }
      | Except.error e =>
        { after := σ
          effects :=
            [Effect.flagIncorrect (flaggedQuery σ.messages σ.flaggedIndex) flagged.content
               σ.flagReason σ.sessionId,
             Effect.consoleError "Flag submission error:",
             Effect.consoleError "Error response:",
             Effect.alert ("Failed to submit flag: " ++ jsOrStr e.detail e.message)] }

/-- The effects of a call of `handleFeedback` (lines 218-236) whose
`submitFeedback` call settles before anything else happens: the request, and the
error log of the `catch` when the call failed. -/
def handleFeedbackEffects (σ : ChatState) (message : Message) (index : Nat)
    (feedbackType : FeedbackType) (ok : Bool) : List Effect :=
  match handleFeedbackStart σ message index feedbackType with
  | none => []
  | some request =>
    if ok then [Effect.submitFeedback request]
    else [Effect.submitFeedback request, Effect.consoleError "Failed to submit feedback:"]

/-! ## Review console (`ProfessorDashboard.jsx`, lines 10-73) -/

/-- The tabs of the dashboard, the values of `activeTab`. -/
inductive Tab where
  | corrections
  | stats
  | trending
  deriving DecidableEq

/-- A pending correction as the dashboard shows it (lines 416-470). -/
structure Correction where
  _id : String
  query : String
  botResponse : String
  reason : String
  deriving DecidableEq

/-- The state variables of the dashboard (lines 10-18). -/
structure DashboardState where
  activeTab : Tab := Tab.corrections
  corrections : List Correction := []
  stats : Option Json := none
  trendingData : Option Json := none
  trendingPeriod : Nat := 7
  loading : Bool := true
  error : String := ""
  editingId : Option String := none
  correctedResponse : String := ""

/-- The dashboard page: the browser storage and the component state. -/
structure Dashboard where
  storage : Storage
  state : DashboardState

/-- How the calls that `loadData` may issue would settle. -/
structure LoadResults where
  pending : Except ApiError (List Correction)
  stats : Except ApiError Json
  trending : Except ApiError Json

/-- The `catch` and `finally` of `loadData` (lines 39-47) after the call `request`
failed with `e`. -/
def loadDataFailed (d : Dashboard) (request : Effect) (e : ApiError) : Outcome Dashboard :=
  if e.status = some 401 then
    { after :=
        { storage := d.storage.removeItem "professorToken"
          state := { d.state with error := jsOrStr e.error "Failed to load data", loading := false } }
      effects := [request, Effect.navigate "/professor"] }
  else
    { after :=
        { d with
          state := { d.state with error := jsOrStr e.error "Failed to load data", loading := false } }
      effects := [request] }

/-- The function `loadData` (lines 25-48). -/
def loadData (d : Dashboard) (results : LoadResults) : Outcome Dashboard :=
  match d.state.activeTab with
  | Tab.corrections =>
    match results.pending with
    | Except.ok data =>
      { after := { d with state := { d.state with error := "", corrections := data, loading := false } }
        effects := [Effect.getPendingCorrections] }
    | Except.error e =>
      loadDataFailed { d with state := { d.state with loading := true, error := "" } }
        Effect.getPendingCorrections e
  | Tab.stats =>
    match results.stats with
    | Except.ok data =>
      { after := { d with state := { d.state with error := "", stats := some data, loading := false } }
        effects := [Effect.getStats] }
    | Except.error e =>
      loadDataFailed { d with state := { d.state with loading := true, error := "" } }
        Effect.getStats e
  | Tab.trending =>
    match results.trending with
    | Except.ok data =>
      { after :=
          { d with
            state := { d.state with error := "", trendingData := some data, loading := false } }
        effects := [Effect.getTrendingQuestions 10 d.state.trendingPeriod] }
    | Except.error e =>
      loadDataFailed { d with state := { d.state with loading := true, error := "" } }
        (Effect.getTrendingQuestions 10 d.state.trendingPeriod) e

/-- The function `reviewCorrection` of `api.js` (lines 88-94): the request it
posts. Its third parameter has the default `null`, taken when the argument is
`undefined` (`none` here). -/
def reviewCorrection (correctionId : String) (action : ReviewAction)
    (correctedResponse : Option String) : ReviewRequest :=
  { correctionId := correctionId, action := action, corrected_response := correctedResponse }

/-- The handler `handleReview` (lines 55-64). Its third parameter has the default
`''`, taken when the argument is left out (`none` here); `review` is how the
`reviewCorrection` call settles and `results` how the calls of `loadData` would. -/
def handleReview (d : Dashboard) (correctionId : String) (action : ReviewAction)
    (correctedText : Option String) (review : Except ApiError Unit) (results : LoadResults) :
    Outcome Dashboard :=
  match review with
  | Except.ok _ =>
    { after :=
        { (loadData d results).after with
          state :=
            { (loadData d results).after.state with editingId := none, correctedResponse := "" } }
      effects :=
        Effect.reviewCorrection
            (reviewCorrection correctionId action (some (correctedText.getD "")))
          :: (loadData d results).effects }
  | Except.error e =>
    { after := { d with state := { d.state with error := jsOrStr e.error "Failed to review correction" } }
      effects :=
        [Effect.reviewCorrection
          (reviewCorrection correctionId action (some (correctedText.getD "")))] }

/-- The handler `startCorrection` (lines 66-69). -/
def startCorrection (d : Dashboard) (correction : Correction) : Outcome Dashboard :=
  { after :=
      { d with
        state :=
          { d.state with editingId := some correction._id, correctedResponse := correction.botResponse } }
    effects := [] }

/-- The handler `submitCorrection` (lines 71-73). -/
def submitCorrection (d : Dashboard) (correctionId : String) (review : Except ApiError Unit)
    (results : LoadResults) : Outcome Dashboard :=
  handleReview d correctionId ReviewAction.approve (some d.state.correctedResponse) review results

/-- Whether the dashboard shows its error banner (line 215, `error && ...`). -/
def DashboardState.showsError (σ : DashboardState) : Bool := truthyStr σ.error

/-! ## Example data of the poller, the flag dialog and the review console -/

/-- A failed call without a response. -/
def networkError : ApiError := { message := "Network Error" }

/-- An unread notification about a reviewed flag. -/
def demoNotification : Notification :=
  { id := "n1", title := "Flag reviewed", message := "A professor corrected the response.",
    is_read := false, created_at := "2023-11-14T22:20:00", correction_id := some "c1" }

/-- A `getNotifications` response with one unread notification. -/
def demoData : NotificationsData :=
  { notifications := some [demoNotification], unread_count := some 1 }

/-- A poller before its effect has run. -/
def demoPoller : PollerRun := { state := demoState }

/-- The state `demoState` with the flag dialog open on the answer and a reason of
blanks only. -/
def blankFlagState : ChatState :=
  { demoState with
    showFlagDialog := true, flaggedMessage := some demoAnswer, flaggedIndex := some 2,
    flagReason := "  \t\n" }

/-- The state `demoState` with the flag dialog open on the answer and a reason. -/
def flagState : ChatState :=
  { demoState with
    showFlagDialog := true, flaggedMessage := some demoAnswer, flaggedIndex := some 2,
    flagReason := "wrong semester" }

/-- A pending correction. -/
def demoCorrection : Correction :=
  { _id := "c1", query := "When is CS 665 offered?", botResponse := "CS 665 is offered in Fall.",
    reason := "wrong semester" }

/-- A dashboard that shows one pending correction. -/
def demoDashboard : Dashboard :=
  { storage := Storage.empty.setItem "professorToken" "token"
    state := { corrections := [demoCorrection], loading := false } }

/-- Calls of `loadData` that all succeed, with no pending correction left. -/
def demoResults : LoadResults :=
  { pending := Except.ok [], stats := Except.ok Json.null, trending := Except.ok Json.null }

/-! ## Sending a message (lines 46-47, 147-188, 263-266, 706-742) -/

/-- The data of a `chat` response (`api.js`, lines 22-29). -/
structure ChatResponse where
  response : String
  suggested_questions : Option (List String) := none

/-- The call `list.slice(-n)` for `n > 0`: the last `n` entries. -/
def sliceLast {α : Type} (n : Nat) (list : List α) : List α := list.drop (list.length - n)

/-- The conversation history of lines 158-164:
`messages.slice(1).slice(-6).map(msg => ({role: msg.role, content: msg.content}))`. -/
def chatHistory (messages : List Message) : List (String × String) :=
  (sliceLast 6 (messages.drop 1)).map (fun msg => (msg.role, msg.content))

/-- The entry that `handleSend` appends for what the user typed (line 153). -/
def userEntry (text : String) : Message := { role := "user", content := text }

/-- The entry that `handleSend` appends when the `chat` call settles: the answer
with the id `Date.now()` (lines 167-170), or the error entry (lines 177-184). -/
def replyEntry (result : Except ApiError ChatResponse) (now : Nat) : Message :=
  match result with
  | Except.ok response => { role := "assistant", content := response.response, id := some now }
  | Except.error _ =>
    { role := "assistant", content := "Sorry, I encountered an error. Please try again.",
      error := true }

/-- The part of `handleSend` before its `await` (lines 148-166): nothing when the
guard of line 148 returns, and otherwise the state updates and the `chat` call. -/
def handleSendStart (σ : ChatState) : ChatState × List Effect :=
  if !truthyStr (jsTrim σ.input) || σ.loading then (σ, [])
  else
    ({ σ with
        input := ""
        showWelcome := false
        messages := σ.messages ++ [userEntry (jsTrim σ.input)]
        loading := true },
      [Effect.chat (jsTrim σ.input) (chatHistory σ.messages) σ.sessionId])

/-- The part of `handleSend` after its `await` (lines 167-187), run on the state of
that moment; `now` is the value of `Date.now()`. -/
def handleSendSettle (σ : ChatState) (result : Except ApiError ChatResponse) (now : Nat) :
    ChatState :=
  match result with
  | Except.ok response =>
    { σ with
      messages := σ.messages ++ [replyEntry result now]
      suggestedQuestions :=
        match response.suggested_questions with
        | some (q :: qs) => q :: qs
        | _ => σ.suggestedQuestions
      loading := false }
  | Except.error _ =>
    { σ with messages := σ.messages ++ [replyEntry result now], loading := false }

/-- A call of `handleSend` (lines 147-188) whose `chat` call settles with `result`
before anything else happens. -/
def handleSend (σ : ChatState) (result : Except ApiError ChatResponse) (now : Nat) :
    Outcome ChatState :=
  if !truthyStr (jsTrim σ.input) || σ.loading then { after := σ, effects := [] }
  else
    { after := handleSendSettle (handleSendStart σ).1 result now
      effects := (handleSendStart σ).2 }

/-- The state of the chat view when it is set up without a stored log
(lines 25-59): the log is the greeting. -/
def freshChat (sessionId : String) : ChatState :=
  { sessionId := sessionId
    messages := [greetingMessage]
    feedbackGiven := fun _ => none
    showWelcome := true
    suggestedQuestions := [] }

/-- A chat view in use: its state, and whether a `chat` call is in flight. -/
structure SendRun where
  state : ChatState
  pending : Bool := false

/-- What happens in a chat view as far as sending goes: the user types
(line 741), picks a quick question (`askQuickQuestion`, lines 263-266) or a
suggested one (lines 706-709), `handleSend` is called, or the `chat` call in
flight settles. -/
inductive SendEvent where
  | typed (text : String)
  | quickQuestion (question : String)
  | suggestedQuestion (question : String)
  | send
  | settle (result : Except ApiError ChatResponse) (now : Nat)

/-- One event of a chat view. -/
def SendRun.step (r : SendRun) : SendEvent → SendRun
  | SendEvent.typed text => { r with state := { r.state with input := text } }
  | SendEvent.quickQuestion question =>
    { r with state := { r.state with input := question, showWelcome := false } }
  | SendEvent.suggestedQuestion question =>
    { r with state := { r.state with input := question, suggestedQuestions := [] } }
  | SendEvent.send =>
    { state := (handleSendStart r.state).1
      pending := r.pending || !(handleSendStart r.state).2.isEmpty }
  | SendEvent.settle result now =>
    if r.pending then { state := handleSendSettle r.state result now, pending := false }
    else r

/-- A sequence of events of a chat view. -/
def SendRun.run (r : SendRun) (events : List SendEvent) : SendRun :=
  events.foldl SendRun.step r

/-- The roles of a log alternate, beginning with the assistant: the entries at
even indices are the assistant's, those at odd indices the user's. -/
def RolesAlternate (log : List Message) : Prop :=
  ∀ i m, log[i]? = some m → m.role = if i % 2 = 0 then "assistant" else "user"

/-- Only entries of the assistant without the error flag carry an id. -/
def IdsOnAnswers (log : List Message) : Prop :=
  ∀ m ∈ log, m.id.isSome = true → m.role = "assistant" ∧ m.error = false

/-! ## Correction details (lines 58-59, 120-129, 872-946) -/

/-- The handler `viewCorrectionDetails` (lines 120-129); `result` is how the
`getCorrectionDetails` call settles. -/
def viewCorrectionDetails (σ : ChatState) (correctionId : String)
    (result : Except ApiError CorrectionDetails) : Outcome ChatState :=
  match result with
  | Except.ok details =>
    { after := { σ with correctionDetails := some details, viewingCorrection := some correctionId }
      effects := [Effect.getCorrectionDetails correctionId] }
  | Except.error _ =>
    { after := σ
      effects :=
        [Effect.getCorrectionDetails correctionId,
         Effect.consoleError "Failed to load correction details:",
         Effect.alert "Failed to load correction details. Please try again."] }

/-- What the detail view shows below the original response (lines 914-946): the
corrected text of the professor, the notice that the professor verified the
original response, the notice of rejection, or nothing. -/
inductive DetailBlock where
  | correctedResponse (text : String)
  | verifiedNotice
  | rejectedNotice
  | nothing
  deriving DecidableEq

/-- The conditional of lines 914-946. -/
def detailBlock (d : CorrectionDetails) : DetailBlock :=
  match d.corrected_response with
  | some text =>
    if truthyStr text then DetailBlock.correctedResponse text
    else if d.status = "approved" then DetailBlock.verifiedNotice
    else if d.status = "rejected" then DetailBlock.rejectedNotice
    else DetailBlock.nothing
  | none =>
    if d.status = "approved" then DetailBlock.verifiedNotice
    else if d.status = "rejected" then DetailBlock.rejectedNotice
    else DetailBlock.nothing

/-- The record that the detail view shows, if it is open (line 872,
`viewingCorrection && correctionDetails`). -/
def shownDetails (σ : ChatState) : Option CorrectionDetails :=
  match σ.viewingCorrection with
  | some correctionId => if truthyStr correctionId then σ.correctionDetails else none
  | none => none

/-! ## Review console: cancelling and view states (lines 391, 448, 474-531) -/

/-- The handler of `Cancel` (lines 487-490). -/
def cancelCorrection (d : Dashboard) : Outcome Dashboard :=
  { after := { d with state := { d.state with editingId := none, correctedResponse := "" } }
    effects := [] }

/-- Whether the dashboard renders the list of corrections, and with it the buttons
of the review console (lines 227 and 391): it is not loading and the corrections
tab is active. -/
def DashboardState.showsCorrections (σ : DashboardState) : Bool :=
  !σ.loading && decide (σ.activeTab = Tab.corrections)

/-- The view state of a correction in the list: editing, with the draft, or
pending. -/
inductive ViewState where
  | pending
  | editing (draft : String)
  deriving DecidableEq

/-- The view state of a correction (lines 448 and 474, `editingId === correction._id`). -/
def viewState (σ : DashboardState) (c : Correction) : ViewState :=
  if σ.editingId = some c._id then ViewState.editing σ.correctedResponse else ViewState.pending

/-- The actions of the review console on a correction. -/
inductive ConsoleAction where
  | edit
  | cancel
  | approve
  | reject
  | submit
  deriving DecidableEq

/-- An action of the review console on the correction `c` (lines 477-521). -/
def consoleAct (d : Dashboard) (c : Correction) (action : ConsoleAction)
    (review : Except ApiError Unit) (results : LoadResults) : Outcome Dashboard :=
  match action with
  | ConsoleAction.edit => startCorrection d c
  | ConsoleAction.cancel => cancelCorrection d
  | ConsoleAction.approve => handleReview d c._id ReviewAction.approve none review results
  | ConsoleAction.reject => handleReview d c._id ReviewAction.reject none review results
  | ConsoleAction.submit => submitCorrection d c._id review results

/-! ## Example data of sending, the detail view and the editor -/

/-- A chat view in which the user has typed a question. -/
def typedState : ChatState := { demoState with input := "  When is CS 665 offered? " }

/-- A `chat` response. -/
def demoReply : ChatResponse := { response := "CS 665 is offered in Spring." }

/-- A failed call that the backend answered with the status 401. -/
def unauthorizedError : ApiError :=
  { message := "Request failed with status code 401", status := some 401 }

/-- A second pending correction. -/
def otherCorrection : Correction :=
  { _id := "c2", query := "Who teaches CS 673?", botResponse := "Professor A teaches CS 673.",
    reason := "outdated" }

/-- A dashboard with two pending corrections, the second being edited. -/
def editingDashboard : Dashboard :=
  { storage := Storage.empty.setItem "professorToken" "token"
    state :=
      { corrections := [demoCorrection, otherCorrection], loading := false,
        editingId := some "c2", correctedResponse := "Professor B teaches CS 673." } }

/-- A correction that was approved without a corrected text. -/
def approvedDetails : CorrectionDetails :=
  { student_query := "When is CS 665 offered?", original_response := "CS 665 is offered in Fall.",
    status := "approved", corrected_response := some "" }

/-- The state that a chat view set up on the greeting alone reaches by a sequence
of events. -/
def sendState (sessionId : String) (events : List SendEvent) : ChatState :=
  (SendRun.run { state := freshChat sessionId } events).state

/-- Two questions that received the same answer in the same millisecond: the
entries at the indices 2 and 4 are equal in every property and are two objects. -/
def twinEvents : List SendEvent :=
  [SendEvent.typed "When is CS 665 offered?", SendEvent.send,
   SendEvent.settle (Except.ok demoReply) 5,
   SendEvent.typed "And CS 665 next year?", SendEvent.send,
   SendEvent.settle (Except.ok demoReply) 5]

/-- The invariant of a run of sends: the roles alternate from the greeting on, ids
sit on answers only, `loading` is on exactly while a chat call is awaited, and a
call is awaited exactly when the last entry of the log is a user message. -/
def SendInv (r : SendRun) : Prop :=
  r.state.messages.head? = some greetingMessage
  ∧ RolesAlternate r.state.messages
  ∧ IdsOnAnswers r.state.messages
  ∧ r.state.loading = r.pending
  ∧ (r.pending = true ↔ r.state.messages.length % 2 = 0)

/-! # Theorems -/

/-! ## Decimal digits -/

theorem digitChar_toNat : ∀ d, d < 10 → (digitChar d).toNat = 48 + d := by decide

theorem digitChar_isDigit (d : Nat) (h : d < 10) : JSON.isDigit (digitChar d) = true := by
  simp [JSON.isDigit, digitChar_toNat d h]; omega

theorem renderNatAux_eq (fuel : Nat) : ∀ n acc, n < fuel →
    renderNatAux fuel n acc = JSON.digitsOf n ++ acc := by
  induction fuel with
  | zero => intro n acc h; omega
  | succ fuel ih =>
    intro n acc h
    rw [renderNatAux, JSON.digitsOf]
    by_cases h10 : n < 10
    · simp [h10]
    · simp only [h10, if_false, dite_false]
      rw [ih (n / 10) _ (by omega)]
      simp

theorem renderNat_eq (n : Nat) : renderNat n = JSON.digitsOf n := by
  simp [renderNat, renderNatAux_eq (n + 1) n [] (Nat.lt_succ_self n)]

namespace JSON

theorem digitsVal_snoc (ds : List Char) (c : Char) :
    digitsVal (ds ++ [c]) = 10 * digitsVal ds + (c.toNat - 48) := by
  simp [digitsVal, List.foldl_append]

theorem digitsVal_digitsOf (n : Nat) : digitsVal (digitsOf n) = n := by
  induction n using Nat.strong_induction_on with
  | _ n ih =>
    rw [digitsOf]
    by_cases h10 : n < 10
    · simp [h10, digitsVal, digitChar_toNat n h10]
    · simp only [h10, dite_false]
      rw [digitsVal_snoc, ih (n / 10) (by omega), digitChar_toNat _ (Nat.mod_lt n (by norm_num))]
      omega

theorem digitsOf_isDigit (n : Nat) : ∀ c ∈ digitsOf n, isDigit c = true := by
  induction n using Nat.strong_induction_on with
  | _ n ih =>
    rw [digitsOf]
    by_cases h10 : n < 10
    · simp [h10, digitChar_isDigit n h10]
    · simp only [h10, dite_false]
      intro c hc
      rcases List.mem_append.mp hc with h | h
      · exact ih (n / 10) (by omega) c h
      · simp only [List.mem_singleton] at h
        rw [h]
        exact digitChar_isDigit _ (Nat.mod_lt n (by norm_num))

theorem digitChar_ne_zero : ∀ d, d < 10 → 0 < d → digitChar d ≠ '0' := by decide

theorem digitsOf_head (n : Nat) (hn : 0 < n) :
    ∃ d tl, digitsOf n = d :: tl ∧ d ≠ '0' ∧ isDigit d = true := by
  induction n using Nat.strong_induction_on with
  | _ n ih =>
    rw [digitsOf]
    by_cases h10 : n < 10
    · exact ⟨digitChar n, [], by simp [h10], digitChar_ne_zero n h10 hn, digitChar_isDigit n h10⟩
    · simp only [h10, dite_false]
      obtain ⟨d, tl, he, hd, hdig⟩ := ih (n / 10) (by omega) (by omega)
      exact ⟨d, tl ++ [digitChar (n % 10)], by simp [he], hd, hdig⟩

theorem spanDigits_append (ds rest : List Char) (hds : ∀ c ∈ ds, isDigit c = true)
    (hrest : ∀ c tl, rest = c :: tl → isDigit c = false) :
    spanDigits (ds ++ rest) = (ds, rest) := by
  induction ds with
  | nil =>
    cases rest with
    | nil => rfl
    | cons c tl => simp [spanDigits, hrest c tl rfl]
  | cons d ds ih =>
    have hd : isDigit d = true := hds d (List.mem_cons_self _ _)
    have ih2 := ih (fun c hc => hds c (List.mem_cons_of_mem _ hc))
    simp [spanDigits, hd, ih2]

theorem parseInt_digitsOf (n : Nat) (rest : List Char) (hrest : endsNumber rest) :
    parseInt (digitsOf n ++ rest) = some (n, rest) := by
  rcases Nat.eq_zero_or_pos n with h0 | hpos
  · subst h0
    have : digitsOf 0 = ['0'] := by rw [digitsOf]; rfl
    rw [this]
    simp [parseInt]
  · obtain ⟨d, tl, he, hd, hdig⟩ := digitsOf_head n hpos
    have hall := digitsOf_isDigit n
    have hv := digitsVal_digitsOf n
    rw [he] at hall hv ⊢
    have hsp : spanDigits (tl ++ rest) = (tl, rest) :=
      spanDigits_append tl rest (fun c hc => hall c (List.mem_cons_of_mem _ hc))
        (fun c t h => (hrest c t h).1)
    simp [parseInt, hd, hdig, hsp, hv]

theorem parseFrac_of_endsNumber (rest : List Char) (hrest : endsNumber rest) :
    parseFrac rest = some (0, rest) := by
  cases rest with
  | nil => rfl
  | cons c tl => simp [parseFrac, (hrest c tl rfl).2.1]

theorem parseExp_of_endsNumber (rest : List Char) (hrest : endsNumber rest) :
    parseExp rest = some (0, rest) := by
  cases rest with
  | nil => rfl
  | cons c tl => simp [parseExp, (hrest c tl rfl).2.2.1, (hrest c tl rfl).2.2.2]

theorem parseUnsigned_digitsOf (n : Nat) (rest : List Char) (hrest : endsNumber rest) :
    parseUnsigned (digitsOf n ++ rest) = some ((n : ℚ), rest) := by
  simp [parseUnsigned, parseInt_digitsOf n rest hrest, parseFrac_of_endsNumber rest hrest,
    parseExp_of_endsNumber rest hrest]

theorem isDigit_ne_minus (c : Char) (h : isDigit c = true) : c ≠ '-' := by
  rintro rfl
  simp [isDigit] at h

theorem parseNumber_renderNat (n : Nat) (rest : List Char) (hrest : endsNumber rest) :
    parseNumber (renderNat n ++ rest) = some ((n : ℚ), rest) := by
  have hu := parseUnsigned_digitsOf n rest hrest
  rw [renderNat_eq]
  have hall := digitsOf_isDigit n
  have hne : ∃ d tl, digitsOf n = d :: tl := by
    rw [digitsOf]
    by_cases h10 : n < 10
    · exact ⟨digitChar n, [], by simp [h10]⟩
    · simp only [h10, dite_false]
      cases hd : digitsOf (n / 10) with
      | nil => exact ⟨_, [], rfl⟩
      | cons a l => exact ⟨a, l ++ [digitChar (n % 10)], rfl⟩
  obtain ⟨d, tl, he⟩ := hne
  rw [he] at hall hu ⊢
  have hd := isDigit_ne_minus d (hall d (List.mem_cons_self _ _))
  simp only [List.cons_append, parseNumber, hd, if_false]
  exact hu

end JSON

/-! ## String literals -/

namespace JSON

theorem hexVal_hexDigit : ∀ d, d < 16 → hexVal (hexDigit d) = some d := by decide

theorem parseStrBody_cons (c : Char) (cs : List Char) (acc : List Nat) :
    parseStrBody (c :: cs) acc =
      if c = '\"' then some (acc.reverse, cs)
      else if c = '\\' then
        match cs with
        | [] => none
        | e :: cs1 =>
          if e = 'u' then
            match cs1 with
            | h1 :: h2 :: h3 :: h4 :: cs2 =>
              match hexVal h1, hexVal h2, hexVal h3, hexVal h4 with
              | some a, some b, some c, some d =>
                parseStrBody cs2 ((a * 4096 + b * 256 + c * 16 + d) :: acc)
              | _, _, _, _ => none
            | _ => none
          else
            match unescape e with
            | some u => parseStrBody cs1 (u :: acc)
            | none => none
      else if c.toNat < 32 then none
      else parseStrBody cs (c.toNat :: acc) := by
  rw [parseStrBody.eq_def]

theorem parseStrBody_escape (e : Char) (u : Nat) (cs : List Char) (acc : List Nat)
    (he : e ≠ 'u') (hu : unescape e = some u) :
    parseStrBody ('\\' :: e :: cs) acc = parseStrBody cs (u :: acc) := by
  rw [parseStrBody_cons]
  simp [he, hu]

theorem parseStrBody_hex (a b : Char) (x y : Nat) (cs : List Char) (acc : List Nat)
    (ha : hexVal a = some x) (hb : hexVal b = some y) :
    parseStrBody ('\\' :: 'u' :: '0' :: '0' :: a :: b :: cs) acc
      = parseStrBody cs ((x * 16 + y) :: acc) := by
  rw [parseStrBody_cons]
  have h0 : hexVal '0' = some 0 := by decide
  simp [ha, hb, h0]

theorem parseStrBody_plain (c : Char) (cs : List Char) (acc : List Nat)
    (h1 : c ≠ '\"') (h2 : c ≠ '\\') (h3 : ¬ c.toNat < 32) :
    parseStrBody (c :: cs) acc = parseStrBody cs (c.toNat :: acc) := by
  rw [parseStrBody_cons]
  simp [h1, h2, h3]

theorem parseStrBody_quoteChar (c : Char) (cs : List Char) (acc : List Nat) :
    parseStrBody (quoteChar c ++ cs) acc = parseStrBody cs (c.toNat :: acc) := by
  unfold quoteChar
  by_cases h1 : c = '\"'
  · subst h1; exact parseStrBody_escape _ _ _ _ (by decide) (by decide)
  by_cases h2 : c = '\\'
  · subst h2; exact parseStrBody_escape _ _ _ _ (by decide) (by decide)
  by_cases h3 : c = '\x08'
  · subst h3; exact parseStrBody_escape _ _ _ _ (by decide) (by decide)
  by_cases h4 : c = '\x0c'
  · subst h4; exact parseStrBody_escape _ _ _ _ (by decide) (by decide)
  by_cases h5 : c = '\n'
  · subst h5; exact parseStrBody_escape _ _ _ _ (by decide) (by decide)
  by_cases h6 : c = '\r'
  · subst h6; exact parseStrBody_escape _ _ _ _ (by decide) (by decide)
  by_cases h7 : c = '\t'
  · subst h7; exact parseStrBody_escape _ _ _ _ (by decide) (by decide)
  simp only [h1, h2, h3, h4, h5, h6, h7, if_false]
  by_cases h8 : c.toNat < 32
  · simp only [h8, if_true, List.cons_append, List.nil_append]
    rw [parseStrBody_hex _ _ _ _ _ _ (hexVal_hexDigit _ (by omega)) (hexVal_hexDigit _ (by omega))]
    congr 2
    omega
  · simp only [h8, if_false, List.cons_append, List.nil_append]
    exact parseStrBody_plain c cs acc h1 h2 h8

theorem parseStrBody_quoteChars (s : List Char) (rest : List Char) (acc : List Nat) :
    parseStrBody (quoteChars s ++ '\"' :: rest) acc
      = some (acc.reverse ++ s.map Char.toNat, rest) := by
  induction s generalizing acc with
  | nil => simp [quoteChars, parseStrBody_cons]
  | cons c cs ih =>
    rw [quoteChars, List.append_assoc, parseStrBody_quoteChar, ih]
    simp

theorem toNat_valid (c : Char) :
    c.toNat < 0xD800 ∨ (0xDFFF < c.toNat ∧ c.toNat < 0x110000) := c.valid

theorem unitChar_toNat (c : Char) : unitChar c.toNat = c := by
  have h := toNat_valid c
  unfold unitChar
  rw [if_neg (by omega)]
  exact Char.ofNat_toNat c

theorem decodeUnits_cons (c : Char) (us : List Nat) :
    decodeUnits (c.toNat :: us) = c :: decodeUnits us := by
  have h := toNat_valid c
  cases us with
  | nil => simp [decodeUnits, unitChar_toNat]
  | cons v rest =>
    rw [decodeUnits, if_neg (by omega), unitChar_toNat]

theorem decodeUnits_map (s : List Char) : decodeUnits (s.map Char.toNat) = s := by
  induction s with
  | nil => rfl
  | cons c cs ih => rw [List.map_cons, decodeUnits_cons, ih]

theorem parseString_quote (s : String) (rest : List Char) :
    parseString (quoteChars s.data ++ '\"' :: rest) = some (s, rest) := by
  simp [parseString, parseStrBody_quoteChars, decodeUnits_map]

end JSON

/-! ## Values, members and elements -/

namespace JSON

theorem skipWs_cons (c : Char) (cs : List Char) (h : isWs c = false) :
    skipWs (c :: cs) = c :: cs := by
  simp [skipWs, h]

theorem parseValue_string (f : Nat) (s : String) (rest : List Char) :
    parseValue (f + 1) (quote s ++ rest) = some (Json.str s, rest) := by
  have h := parseString_quote s rest
  simp only [quote, List.cons_append, List.append_assoc, List.singleton_append]
  rw [parseValue]
  simp [parseScalar, h]

theorem parseValue_true (f : Nat) (rest : List Char) :
    parseValue (f + 1) ('t' :: 'r' :: 'u' :: 'e' :: rest) = some (Json.bool true, rest) := by
  rw [parseValue]
  simp [parseScalar, dropLit]

theorem isDigit_not_opener (c : Char) (h : isDigit c = true) :
    c ≠ '{' ∧ c ≠ '[' ∧ c ≠ '\"' ∧ c ≠ 't' ∧ c ≠ 'f' ∧ c ≠ 'n' := by
  refine ⟨?_, ?_, ?_, ?_, ?_, ?_⟩ <;> (rintro rfl; simp [isDigit] at h)

theorem isDigit_not_ws (c : Char) (h : isDigit c = true) : isWs c = false := by
  cases hw : isWs c with
  | false => rfl
  | true =>
    simp only [isWs, Bool.or_eq_true, decide_eq_true_eq] at hw
    rcases hw with ((rfl | rfl) | rfl) | rfl <;> simp [isDigit] at h

theorem renderNat_cons (n : Nat) : ∃ d tl, renderNat n = d :: tl ∧ isDigit d = true := by
  rw [renderNat_eq]
  have hall := digitsOf_isDigit n
  rw [digitsOf] at hall ⊢
  by_cases h10 : n < 10
  · exact ⟨digitChar n, [], by simp [h10], digitChar_isDigit n h10⟩
  · simp only [h10, dite_false] at hall ⊢
    cases hd : digitsOf (n / 10) with
    | nil => exact ⟨_, [], rfl, digitChar_isDigit _ (Nat.mod_lt n (by norm_num))⟩
    | cons a l =>
      refine ⟨a, l ++ [digitChar (n % 10)], rfl, hall a ?_⟩
      simp [hd]

theorem parseValue_number (f n : Nat) (rest : List Char) (hrest : endsNumber rest) :
    parseValue (f + 1) (renderNat n ++ rest) = some (Json.num (n : ℚ), rest) := by
  have hn := parseNumber_renderNat n rest hrest
  obtain ⟨d, tl, he, hd⟩ := renderNat_cons n
  rw [he] at hn ⊢
  obtain ⟨h1, h2, h3, h4, h5, h6⟩ := isDigit_not_opener d hd
  rw [List.cons_append] at hn ⊢
  rw [parseValue]
  simp only [parseScalar, h1, h2, h3, h4, h5, h6, if_false, hn]

/-- One member of an object whose value is followed by `,` or `}`. -/
theorem parseMembers_step (g : Nat) (k : String) (tl : List Char)
    (acc : List (String × Json)) (v : Json) (e : Char) (rest : List Char)
    (hv : parseValue g (skipWs tl) = some (v, e :: rest)) (he : isWs e = false) :
    parseMembers (g + 1) ('\"' :: (quoteChars k.data ++ '\"' :: ':' :: tl)) acc =
      if e = ',' then parseMembers g (skipWs rest) (setMember acc k v)
      else if e = '}' then some (Json.obj (setMember acc k v), rest)
      else none := by
  rw [parseMembers]
  simp only [if_true, parseString_quote k (':' :: tl)]
  rw [skipWs_cons ':' tl (by decide)]
  simp only [if_true, hv]
  rw [skipWs_cons e rest he]

theorem endsNumber_comma (rest : List Char) : endsNumber (',' :: rest) := by
  intro c tl h
  have hc : ',' = c := by injection h
  subst hc
  decide

theorem endsNumber_brace (rest : List Char) : endsNumber ('}' :: rest) := by
  intro c tl h
  have hc : '}' = c := by injection h
  subst hc
  decide

theorem quote_isWs (s : String) (rest : List Char) :
    skipWs (quote s ++ rest) = quote s ++ rest := by
  simp only [quote, List.cons_append]
  exact skipWs_cons _ _ (by decide)

theorem parseMembers_str (g : Nat) (k s : String) (e : Char) (rest : List Char)
    (acc : List (String × Json)) (he : isWs e = false) :
    parseMembers (g + 2) ('\"' :: (quoteChars k.data ++ '\"' :: ':' :: (quote s ++ e :: rest))) acc =
      if e = ',' then parseMembers (g + 1) (skipWs rest) (setMember acc k (Json.str s))
      else if e = '}' then some (Json.obj (setMember acc k (Json.str s)), rest)
      else none := by
  apply parseMembers_step (g + 1) k _ acc (Json.str s) e rest _ he
  rw [quote_isWs]
  exact parseValue_string g s (e :: rest)

theorem parseMembers_num (g : Nat) (k : String) (n : Nat) (e : Char) (rest : List Char)
    (acc : List (String × Json)) (he : isWs e = false) (hn : endsNumber (e :: rest)) :
    parseMembers (g + 2) ('\"' :: (quoteChars k.data ++ '\"' :: ':' :: (renderNat n ++ e :: rest))) acc =
      if e = ',' then parseMembers (g + 1) (skipWs rest) (setMember acc k (Json.num (n : ℚ)))
      else if e = '}' then some (Json.obj (setMember acc k (Json.num (n : ℚ))), rest)
      else none := by
  apply parseMembers_step (g + 1) k _ acc (Json.num (n : ℚ)) e rest _ he
  obtain ⟨d, tl, hd, hdig⟩ := renderNat_cons n
  have hws : skipWs (renderNat n ++ e :: rest) = renderNat n ++ e :: rest := by
    rw [hd, List.cons_append]
    exact skipWs_cons _ _ (isDigit_not_ws d hdig)
  rw [hws]
  exact parseValue_number g n (e :: rest) hn

theorem parseMembers_true (g : Nat) (k : String) (e : Char) (rest : List Char)
    (acc : List (String × Json)) (he : isWs e = false) :
    parseMembers (g + 2)
        ('\"' :: (quoteChars k.data ++ '\"' :: ':' :: 't' :: 'r' :: 'u' :: 'e' :: e :: rest)) acc =
      if e = ',' then parseMembers (g + 1) (skipWs rest) (setMember acc k (Json.bool true))
      else if e = '}' then some (Json.obj (setMember acc k (Json.bool true)), rest)
      else none := by
  apply parseMembers_step (g + 1) k _ acc (Json.bool true) e rest _ he
  rw [skipWs_cons 't' _ (by decide)]
  exact parseValue_true g (e :: rest)

/-- The members `error` (when set) and the closing brace. -/
theorem parseMembers_errorTail (g : Nat) (err : Bool) (rest : List Char)
    (acc : List (String × Json)) (e : Char) (tl : List Char)
    (h : e :: tl = (if err then ",\"error\":true".data else []) ++ '}' :: rest) :
    (if e = ',' then parseMembers (g + 2) (skipWs tl) acc
      else if e = '}' then some (Json.obj acc, tl)
      else none)
    = some (Json.obj (if err then setMember acc "error" (Json.bool true) else acc), rest) := by
  cases err with
  | false =>
    simp only [Bool.false_eq_true, if_false, List.nil_append, List.cons.injEq] at h
    obtain ⟨rfl, rfl⟩ := h
    simp
  | true =>
    simp only [if_true, List.cons_append, List.nil_append, List.cons.injEq] at h
    obtain ⟨rfl, rfl⟩ := h
    simp only [if_true]
    rw [skipWs_cons '\"' _ (by decide)]
    exact parseMembers_true g "error" '}' rest acc (by decide)

theorem errorTail_cons (err : Bool) (rest : List Char) :
    ∃ e tl, (if err then ",\"error\":true".data else []) ++ '}' :: rest = e :: tl
      ∧ isWs e = false ∧ endsNumber (e :: tl) := by
  cases err with
  | false => exact ⟨'}', rest, by simp, by decide, endsNumber_brace rest⟩
  | true => exact ⟨',', _, rfl, by decide, endsNumber_comma _⟩

theorem parseValue_message (f : Nat) (m : Message) (rest : List Char) :
    parseValue (f + 6) (stringifyMessage m ++ rest) = some (m.toJson, rest) := by
  obtain ⟨role, content, id, err⟩ := m
  obtain ⟨e, tl, hT, hws, hnum⟩ := errorTail_cons err rest
  have htail := fun g acc => parseMembers_errorTail g err rest acc e tl hT.symm
  cases id with
  | none =>
    have htext : stringifyMessage ⟨role, content, none, err⟩ ++ rest
        = '{' :: '\"' :: (quoteChars "role".data ++ '\"' :: ':' :: (quote role ++ ',' ::
            '\"' :: (quoteChars "content".data ++ '\"' :: ':' :: (quote content ++ e :: tl)))) := by
      rw [← hT]
      simp [stringifyMessage, quoteChars, quoteChar]
    rw [htext, parseValue]
    simp only [show ('{' : Char) = '{' from rfl, if_true]
    rw [skipWs_cons '\"' _ (by decide)]
    simp only [show ¬ ('\"' : Char) = '}' by decide, if_false]
    rw [parseMembers_str (f + 3) "role" role ',' _ [] (by decide)]
    simp only [if_true]
    rw [skipWs_cons '\"' _ (by decide), parseMembers_str (f + 2) "content" content e tl _ hws,
      htail (f + 1)]
    cases err <;> simp [Message.toJson, setMember]
  | some n =>
    have htext : stringifyMessage ⟨role, content, some n, err⟩ ++ rest
        = '{' :: '\"' :: (quoteChars "role".data ++ '\"' :: ':' :: (quote role ++ ',' ::
            '\"' :: (quoteChars "content".data ++ '\"' :: ':' :: (quote content ++ ',' ::
            '\"' :: (quoteChars "id".data ++ '\"' :: ':' :: (renderNat n ++ e :: tl)))))) := by
      rw [← hT]
      simp [stringifyMessage, quoteChars, quoteChar]
    rw [htext, parseValue]
    simp only [show ('{' : Char) = '{' from rfl, if_true]
    rw [skipWs_cons '\"' _ (by decide)]
    simp only [show ¬ ('\"' : Char) = '}' by decide, if_false]
    rw [parseMembers_str (f + 3) "role" role ',' _ [] (by decide)]
    simp only [if_true]
    rw [skipWs_cons '\"' _ (by decide), parseMembers_str (f + 2) "content" content ',' _ _ (by decide)]
    simp only [if_true]
    rw [skipWs_cons '\"' _ (by decide), parseMembers_num (f + 1) "id" n e tl _ hws hnum,
      htail f]
    cases err <;> simp [Message.toJson, setMember]

theorem stringifyMessage_cons (m : Message) :
    ∃ tl, stringifyMessage m = '{' :: tl := by
  exact ⟨_, rfl⟩

theorem parseElems_stringifyElems (ms : List Message) :
    ∀ (m : Message) (f : Nat) (acc : List Json) (rest : List Char),
      parseElems (f + ms.length + 7) (stringifyElems (m :: ms) ++ ']' :: rest) acc
        = some (Json.arr (acc.reverse ++ (m :: ms).map Message.toJson), rest) := by
  induction ms with
  | nil =>
    intro m f acc rest
    rw [stringifyElems, parseElems]
    simp only [List.length_nil, Nat.add_zero]
    rw [parseValue_message f m (']' :: rest)]
    simp only []
    rw [skipWs_cons ']' rest (by decide)]
    simp
  | cons m2 ms ih =>
    intro m f acc rest
    have hnext : skipWs (stringifyElems (m2 :: ms) ++ ']' :: rest)
        = stringifyElems (m2 :: ms) ++ ']' :: rest := by
      obtain ⟨tl, htl⟩ := stringifyMessage_cons m2
      cases ms with
      | nil => rw [stringifyElems, htl]; exact skipWs_cons _ _ (by decide)
      | cons m3 ms =>
        rw [stringifyElems, htl]; exact skipWs_cons _ _ (by decide)
    rw [stringifyElems, parseElems]
    simp only [List.append_assoc, List.cons_append, List.length_cons]
    rw [show f + (ms.length + 1) + 6 = (f + ms.length + 1) + 6 by omega,
      parseValue_message (f + ms.length + 1) m _]
    simp only []
    rw [skipWs_cons ',' _ (by decide)]
    simp only [if_true]
    rw [hnext, show f + ms.length + 1 + 6 = f + ms.length + 7 by omega, ih m2 f (m.toJson :: acc) rest]
    simp

theorem stringifyElems_length (log : List Message) :
    log.length ≤ (stringifyElems log).length := by
  induction log with
  | nil => simp
  | cons m ms ih =>
    obtain ⟨tl, htl⟩ := stringifyMessage_cons m
    cases ms with
    | nil => simp [stringifyElems, htl]
    | cons m2 ms =>
      rw [stringifyElems, htl]
      simp only [List.length_cons, List.cons_append, List.length_append] at ih ⊢
      omega

/-- Parsing the text that `JSON.stringify` writes for a message log gives the log back. -/
theorem parse_stringify (log : List Message) :
    parse (stringify log) = some (logJson log) := by
  cases log with
  | nil => rfl
  | cons m ms =>
    have hlen := stringifyElems_length (m :: ms)
    simp only [List.length_cons] at hlen
    obtain ⟨f, hf⟩ : ∃ f, 2 * (stringify (m :: ms)).length + 2 = (f + ms.length + 7) + 1 := by
      refine ⟨2 * (stringify (m :: ms)).length + 2 - (ms.length + 8), ?_⟩
      simp only [stringify, String.length, List.length_cons, List.length_append,
        List.length_singleton]
      omega
    obtain ⟨tl, htl⟩ : ∃ tl, stringifyElems (m :: ms) = '{' :: tl := by
      obtain ⟨tl, htl⟩ := stringifyMessage_cons m
      cases ms with
      | nil => exact ⟨tl, by rw [stringifyElems, htl]⟩
      | cons m2 ms => exact ⟨_, by rw [stringifyElems, htl]; rfl⟩
    have helems := parseElems_stringifyElems ms m f [] []
    unfold parse
    rw [hf]
    simp only [stringify]
    rw [skipWs_cons '[' _ (by decide), parseValue]
    simp only [show ¬ ('[' : Char) = '{' by decide, if_false, if_true]
    rw [htl] at helems ⊢
    rw [List.cons_append, skipWs_cons '{' _ (by decide)]
    simp only [show ¬ ('{' : Char) = ']' by decide, if_false]
    rw [List.cons_append] at helems
    rw [helems]
    simp [skipWs, logJson]

end JSON

/-! ## The fuel of `JSON.parse` is enough -/

namespace JSON

theorem skipWs_length_le (cs : List Char) : (skipWs cs).length ≤ cs.length := by
  induction cs with
  | nil => simp [skipWs]
  | cons c cs ih =>
    rw [skipWs]
    split
    · simp only [List.length_cons]; omega
    · exact Nat.le_refl _

theorem parseStrBody_length (n : Nat) :
    ∀ (cs : List Char) (acc us : List Nat) (rest : List Char), cs.length ≤ n →
      parseStrBody cs acc = some (us, rest) → rest.length < cs.length := by
  induction n with
  | zero =>
    intro cs acc us rest hn h
    cases cs with
    | nil => simp [parseStrBody] at h
    | cons c cs => simp at hn
  | succ n ih =>
    intro cs acc us rest hn h
    cases cs with
    | nil => simp [parseStrBody] at h
    | cons c cs =>
      rw [parseStrBody_cons] at h
      simp only [List.length_cons] at hn ⊢
      split at h
      · simp only [Option.some.injEq, Prod.mk.injEq] at h
        rw [← h.2]
        omega
      · split at h
        · split at h
          · exact absurd h (by simp)
          · rename_i e cs1
            split at h
            · split at h
              · rename_i h1 h2 h3 h4 cs2
                split at h
                · have := ih cs2 _ us rest (by simp only [List.length_cons] at hn; omega) h
                  simp only [List.length_cons]
                  omega
                · exact absurd h (by simp)
              · exact absurd h (by simp)
            · split at h
              · have := ih cs1 _ us rest (by simp only [List.length_cons] at hn; omega) h
                simp only [List.length_cons]
                omega
              · exact absurd h (by simp)
        · split at h
          · exact absurd h (by simp)
          · have := ih cs _ us rest (by omega) h
            omega

theorem parseString_length (cs : List Char) (s : String) (rest : List Char)
    (h : parseString cs = some (s, rest)) : rest.length < cs.length := by
  unfold parseString at h
  split at h
  · rename_i us r hb
    simp only [Option.some.injEq, Prod.mk.injEq] at h
    rw [← h.2]
    exact parseStrBody_length cs.length cs [] us r (Nat.le_refl _) hb
  · exact absurd h (by simp)

theorem spanDigits_length (cs : List Char) : (spanDigits cs).2.length ≤ cs.length := by
  induction cs with
  | nil => simp [spanDigits]
  | cons c cs ih =>
    rw [spanDigits]
    split
    · simp only [List.length_cons]; omega
    · exact Nat.le_refl _

theorem parseInt_length (cs : List Char) (n : Nat) (rest : List Char)
    (h : parseInt cs = some (n, rest)) : rest.length < cs.length := by
  cases cs with
  | nil => simp [parseInt] at h
  | cons d cs =>
    have hs := spanDigits_length cs
    rw [parseInt] at h
    simp only [List.length_cons]
    split at h
    · simp only [Option.some.injEq, Prod.mk.injEq] at h
      rw [← h.2]; omega
    · split at h
      · simp only [Option.some.injEq, Prod.mk.injEq] at h
        rw [← h.2]; omega
      · exact absurd h (by simp)

theorem parseFrac_length (cs : List Char) (q : ℚ) (rest : List Char)
    (h : parseFrac cs = some (q, rest)) : rest.length ≤ cs.length := by
  cases cs with
  | nil =>
    simp only [parseFrac, Option.some.injEq, Prod.mk.injEq] at h
    rw [← h.2]
  | cons c cs =>
    have hs := spanDigits_length cs
    rw [parseFrac] at h
    simp only [List.length_cons]
    split at h
    · split at h
      · exact absurd h (by simp)
      · rename_i f fs r hsp
        simp only [Option.some.injEq, Prod.mk.injEq] at h
        rw [hsp] at hs
        rw [← h.2]
        simp only at hs
        omega
    · simp only [Option.some.injEq, Prod.mk.injEq] at h
      rw [← h.2]
      simp

theorem parseExpDigits_length (cs : List Char) (n : Nat) (rest : List Char)
    (h : parseExpDigits cs = some (n, rest)) : rest.length ≤ cs.length := by
  have hs := spanDigits_length cs
  unfold parseExpDigits at h
  split at h
  · exact absurd h (by simp)
  · rename_i d ds r hsp
    simp only [Option.some.injEq, Prod.mk.injEq] at h
    rw [hsp] at hs
    rw [← h.2]
    exact hs

theorem parseExp_length (cs : List Char) (z : ℤ) (rest : List Char)
    (h : parseExp cs = some (z, rest)) : rest.length ≤ cs.length := by
  cases cs with
  | nil =>
    simp only [parseExp, Option.some.injEq, Prod.mk.injEq] at h
    rw [← h.2]
  | cons c cs =>
    rw [parseExp.eq_def] at h
    simp only [List.length_cons] at h ⊢
    split at h
    · split at h
      · exact absurd h (by simp)
      · rename_i s cs1
        split at h
        · split at h
          · rename_i n r hd
            have := parseExpDigits_length _ _ _ hd
            simp only [Option.some.injEq, Prod.mk.injEq] at h
            rw [← h.2]
            simp only [List.length_cons]
            omega
          · exact absurd h (by simp)
        · split at h
          · split at h
            · rename_i n r hd
              have := parseExpDigits_length _ _ _ hd
              simp only [Option.some.injEq, Prod.mk.injEq] at h
              rw [← h.2]
              simp only [List.length_cons]
              omega
            · exact absurd h (by simp)
          · split at h
            · rename_i n r hd
              have := parseExpDigits_length _ _ _ hd
              simp only [Option.some.injEq, Prod.mk.injEq] at h
              rw [← h.2]
              simp only [List.length_cons] at this ⊢
              omega
            · exact absurd h (by simp)
    · simp only [Option.some.injEq, Prod.mk.injEq] at h
      rw [← h.2]
      simp

theorem parseUnsigned_length (cs : List Char) (q : ℚ) (rest : List Char)
    (h : parseUnsigned cs = some (q, rest)) : rest.length < cs.length := by
  unfold parseUnsigned at h
  split at h
  · exact absurd h (by simp)
  · rename_i ip cs1 hi
    split at h
    · exact absurd h (by simp)
    · rename_i fr cs2 hf
      split at h
      · exact absurd h (by simp)
      · rename_i ex cs3 he
        simp only [Option.some.injEq, Prod.mk.injEq] at h
        have h1 := parseInt_length _ _ _ hi
        have h2 := parseFrac_length _ _ _ hf
        have h3 := parseExp_length _ _ _ he
        rw [← h.2]
        omega

theorem parseNumber_length (cs : List Char) (q : ℚ) (rest : List Char)
    (h : parseNumber cs = some (q, rest)) : rest.length < cs.length := by
  cases cs with
  | nil => simp [parseNumber] at h
  | cons c cs =>
    rw [parseNumber] at h
    split at h
    · split at h
      · rename_i q1 r hu
        have := parseUnsigned_length _ _ _ hu
        simp only [Option.some.injEq, Prod.mk.injEq] at h
        rw [← h.2]
        simp only [List.length_cons]
        omega
      · exact absurd h (by simp)
    · exact parseUnsigned_length _ _ _ h

theorem dropLit_length (lit cs rest : List Char) (h : dropLit lit cs = some rest) :
    rest.length ≤ cs.length := by
  induction lit generalizing cs with
  | nil =>
    simp only [dropLit, Option.some.injEq] at h
    rw [h]
  | cons l ls ih =>
    cases cs with
    | nil => simp [dropLit] at h
    | cons c cs =>
      rw [dropLit] at h
      split at h
      · have := ih cs h
        simp only [List.length_cons]
        omega
      · exact absurd h (by simp)

theorem parseScalar_length (c : Char) (cs : List Char) (v : Json) (rest : List Char)
    (h : parseScalar c cs = some (v, rest)) : rest.length ≤ cs.length := by
  unfold parseScalar at h
  split at h
  · split at h
    · rename_i s r hs
      have := parseString_length _ _ _ hs
      simp only [Option.some.injEq, Prod.mk.injEq] at h
      rw [← h.2]; omega
    · exact absurd h (by simp)
  · split at h
    · split at h
      · rename_i r hd
        have := dropLit_length _ _ _ hd
        simp only [Option.some.injEq, Prod.mk.injEq] at h
        rw [← h.2]; omega
      · exact absurd h (by simp)
    · split at h
      · split at h
        · rename_i r hd
          have := dropLit_length _ _ _ hd
          simp only [Option.some.injEq, Prod.mk.injEq] at h
          rw [← h.2]; omega
        · exact absurd h (by simp)
      · split at h
        · split at h
          · rename_i r hd
            have := dropLit_length _ _ _ hd
            simp only [Option.some.injEq, Prod.mk.injEq] at h
            rw [← h.2]; omega
          · exact absurd h (by simp)
        · split at h
          · rename_i q r hn
            have := parseNumber_length _ _ _ hn
            simp only [Option.some.injEq, Prod.mk.injEq] at h
            rw [← h.2]
            simp only [List.length_cons] at this
            omega
          · exact absurd h (by simp)

theorem parseValue_fuelFree_step (f : Nat)
    (ihE : FuelFree parseElems f) (ihM : FuelFree parseMembers f) :
    FuelFreeValue (f + 1) := by
  intro cs v rest h
  cases cs with
  | nil => simp [parseValue] at h
  | cons c cs =>
    have hsl := skipWs_length_le cs
    rw [parseValue] at h
    by_cases hc1 : c = '{'
    · simp only [hc1, if_true] at h
      cases hsk : skipWs cs with
      | nil => simp [hsk] at h
      | cons d cs1 =>
        rw [hsk] at h hsl
        simp only [List.length_cons] at hsl ⊢
        by_cases hd : d = '}'
        · simp only [hd, if_true, Option.some.injEq, Prod.mk.injEq] at h
          obtain ⟨rfl, rfl⟩ := h
          refine ⟨by omega, fun g hg => ?_⟩
          obtain ⟨g1, rfl⟩ : ∃ g1, g = g1 + 1 := ⟨g - 1, by omega⟩
          rw [parseValue]
          simp [hc1, hsk, hd]
        · simp only [hd, if_false] at h
          obtain ⟨hlt, hg⟩ := ihM _ _ _ _ h
          simp only [List.length_cons] at hlt hg
          refine ⟨by omega, fun g hgg => ?_⟩
          obtain ⟨g1, rfl⟩ : ∃ g1, g = g1 + 1 := ⟨g - 1, by omega⟩
          rw [parseValue]
          simp only [hc1, if_true, hsk, hd, if_false]
          exact hg g1 (by omega)
    · by_cases hc2 : c = '['
      · simp only [hc1, hc2, if_true, if_false] at h
        cases hsk : skipWs cs with
        | nil => simp [hsk] at h
        | cons d cs1 =>
          rw [hsk] at h hsl
          simp only [List.length_cons] at hsl ⊢
          by_cases hd : d = ']'
          · simp only [hd, if_true, Option.some.injEq, Prod.mk.injEq] at h
            obtain ⟨rfl, rfl⟩ := h
            refine ⟨by omega, fun g hg => ?_⟩
            obtain ⟨g1, rfl⟩ : ∃ g1, g = g1 + 1 := ⟨g - 1, by omega⟩
            rw [parseValue]
            simp [hc2, hsk, hd]
          · simp only [hd, if_false] at h
            obtain ⟨hlt, hg⟩ := ihE _ _ _ _ h
            simp only [List.length_cons] at hlt hg
            refine ⟨by omega, fun g hgg => ?_⟩
            obtain ⟨g1, rfl⟩ : ∃ g1, g = g1 + 1 := ⟨g - 1, by omega⟩
            rw [parseValue]
            simp only [hc1, hc2, if_true, hsk, hd, if_false]
            exact hg g1 (by omega)
      · simp only [hc1, hc2, if_false] at h
        have hlen := parseScalar_length c cs v rest h
        simp only [List.length_cons]
        refine ⟨by omega, fun g hgg => ?_⟩
        obtain ⟨g1, rfl⟩ : ∃ g1, g = g1 + 1 := ⟨g - 1, by omega⟩
        rw [parseValue]
        simp only [hc1, hc2, if_false]
        exact h

theorem parseElems_fuelFree_step (f : Nat)
    (ihV : FuelFreeValue f)
    (ihE : FuelFree parseElems f) :
    FuelFree parseElems (f + 1) := by
  intro cs acc v rest h
  rw [parseElems] at h
  cases hv : parseValue f cs with
  | none => simp [hv] at h
  | some p =>
    obtain ⟨v1, r1⟩ := p
    obtain ⟨hlt1, hg1⟩ := ihV cs v1 r1 hv
    simp only [hv] at h
    have hsl := skipWs_length_le r1
    cases hsk : skipWs r1 with
    | nil => simp [hsk] at h
    | cons c rest1 =>
      rw [hsk] at h hsl
      simp only [List.length_cons] at hsl
      have hsl2 := skipWs_length_le rest1
      by_cases hc : c = ','
      · simp only [hc, if_true] at h
        obtain ⟨hlt2, hg2⟩ := ihE _ _ _ _ h
        refine ⟨by omega, fun g hgg => ?_⟩
        obtain ⟨g1, rfl⟩ : ∃ g1, g = g1 + 1 := ⟨g - 1, by omega⟩
        rw [parseElems, hg1 g1 (by omega)]
        simp only [hsk, hc, if_true]
        exact hg2 g1 (by omega)
      · by_cases hc2 : c = ']'
        · simp only [hc, hc2, if_true, if_false, Option.some.injEq, Prod.mk.injEq] at h
          obtain ⟨rfl, rfl⟩ := h
          refine ⟨by omega, fun g hgg => ?_⟩
          obtain ⟨g1, rfl⟩ : ∃ g1, g = g1 + 1 := ⟨g - 1, by omega⟩
          rw [parseElems, hg1 g1 (by omega)]
          simp [hsk, hc2]
        · simp [hc, hc2] at h

theorem parseMembers_fuelFree_step (f : Nat)
    (ihV : FuelFreeValue f)
    (ihM : FuelFree parseMembers f) :
    FuelFree parseMembers (f + 1) := by
  intro cs acc v rest h
  cases cs with
  | nil => simp [parseMembers] at h
  | cons q cs =>
    rw [parseMembers] at h
    by_cases hq : q = '\"'
    · simp only [hq, if_true] at h
      cases hs : parseString cs with
      | none => simp [hs] at h
      | some p =>
        obtain ⟨key, r0⟩ := p
        have hl0 := parseString_length cs key r0 hs
        simp only [hs] at h
        have hsl0 := skipWs_length_le r0
        cases hsk0 : skipWs r0 with
        | nil => simp [hsk0] at h
        | cons c rest1 =>
          rw [hsk0] at h hsl0
          simp only [List.length_cons] at hsl0
          by_cases hc : c = ':'
          · simp only [hc, if_true] at h
            have hsl1 := skipWs_length_le rest1
            cases hv : parseValue f (skipWs rest1) with
            | none => simp [hv] at h
            | some p2 =>
              obtain ⟨v1, r2⟩ := p2
              obtain ⟨hlt1, hg1⟩ := ihV _ v1 r2 hv
              simp only [hv] at h
              have hsl2 := skipWs_length_le r2
              cases hsk2 : skipWs r2 with
              | nil => simp [hsk2] at h
              | cons e rest3 =>
                rw [hsk2] at h hsl2
                simp only [List.length_cons] at hsl2 ⊢
                have hsl3 := skipWs_length_le rest3
                by_cases he : e = ','
                · simp only [he, if_true] at h
                  obtain ⟨hlt2, hg2⟩ := ihM _ _ _ _ h
                  refine ⟨by omega, fun g hgg => ?_⟩
                  obtain ⟨g1, rfl⟩ : ∃ g1, g = g1 + 1 := ⟨g - 1, by omega⟩
                  rw [parseMembers]
                  simp only [hq, if_true, hs, hsk0, hc, hg1 g1 (by omega), hsk2, he]
                  exact hg2 g1 (by omega)
                · by_cases he2 : e = '}'
                  · simp only [he, he2, if_true, if_false, Option.some.injEq,
                      Prod.mk.injEq] at h
                    obtain ⟨rfl, rfl⟩ := h
                    refine ⟨by omega, fun g hgg => ?_⟩
                    obtain ⟨g1, rfl⟩ : ∃ g1, g = g1 + 1 := ⟨g - 1, by omega⟩
                    rw [parseMembers]
                    simp [hq, hs, hsk0, hc, hg1 g1 (by omega), hsk2, he2]
                  · simp [he, he2] at h
          · simp [hc] at h
    · simp [hq] at h

theorem parse_fuelFree (f : Nat) :
    FuelFreeValue f
      ∧ FuelFree parseElems f ∧ FuelFree parseMembers f := by
  induction f with
  | zero =>
    refine ⟨?_, ?_, ?_⟩
    · intro cs v rest h
      simp [parseValue] at h
    · intro cs a v rest h
      simp [parseElems] at h
    · intro cs a v rest h
      simp [parseMembers] at h
  | succ f ih =>
    obtain ⟨ihV, ihE, ihM⟩ := ih
    exact ⟨parseValue_fuelFree_step f ihE ihM, parseElems_fuelFree_step f ihV ihE,
      parseMembers_fuelFree_step f ihV ihM⟩

/-- The fuel that `JSON.parse` gives its parser is enough: a text that parses with
some fuel parses, to the same value, in `JSON.parse`. -/
theorem parse_of_parseValue (text : String) (f : Nat) (v : Json) (rest : List Char)
    (h : parseValue f (skipWs text.data) = some (v, rest)) (hrest : skipWs rest = []) :
    parse text = some v := by
  obtain ⟨_, hg⟩ := (parse_fuelFree f).1 _ v rest h
  have hsl := skipWs_length_le text.data
  have hlen : text.length = text.data.length := rfl
  unfold parse
  rw [hg (2 * text.length + 2) (by omega)]
  simp [hrest]

/-- The text that `JSON.parse` refuses is refused with every fuel. -/
theorem parse_eq_none_iff (text : String) :
    parse text = none ↔
      ∀ f v rest, parseValue f (skipWs text.data) = some (v, rest) → skipWs rest ≠ [] := by
  constructor
  · intro hn f v rest h hrest
    rw [parse_of_parseValue text f v rest h hrest] at hn
    exact absurd hn (by simp)
  · intro hall
    unfold parse
    cases hp : parseValue (2 * text.length + 2) (skipWs text.data) with
    | none => rfl
    | some p =>
      obtain ⟨v, rest⟩ := p
      have := hall _ v rest hp
      simp only []
      cases hr : skipWs rest with
      | nil => exact absurd hr this
      | cons a b => rfl

end JSON

/-! ## Sample texts -/

namespace JSON

/-- Texts that `JSON.parse` accepts, with their values. -/
theorem parse_accepts :
    parse "[]" = some (Json.arr [])
    ∧ parse " [ ]\n" = some (Json.arr [])
    ∧ parse "\x7b\x7d" = some (Json.obj [])
    ∧ parse "[true, false, null]" = some (Json.arr [Json.bool true, Json.bool false, Json.null])
    ∧ parse "\"a\\u0041\\n\\ud83d\\ude00\"" = some (Json.str "aA\n😀")
    ∧ parse "\x7b\"k\":\"a\",\"j\":[],\"k\":\"b\"\x7d"
        = some (Json.obj [("k", Json.str "b"), ("j", Json.arr [])]) := by
  refine ⟨rfl, rfl, rfl, rfl, rfl, rfl⟩

/-- Texts that `JSON.parse` refuses. -/
theorem parse_refuses :
    parse "" = none
    ∧ parse "undefined" = none
    ∧ parse "01" = none
    ∧ parse "1." = none
    ∧ parse "-" = none
    ∧ parse "1e" = none
    ∧ parse "[1,]" = none
    ∧ parse "[1 2]" = none
    ∧ parse "\x7b\"a\":1,\x7d" = none
    ∧ parse "\x7ba:1\x7d" = none
    ∧ parse "\"a\nb\"" = none
    ∧ parse "\"\\x41\"" = none
    ∧ parse "[] []" = none := by
  refine ⟨rfl, rfl, rfl, rfl, rfl, rfl, rfl, rfl, rfl, rfl, rfl, rfl, rfl⟩

/-- Number literals and their values. -/
theorem parse_numbers :
    parse "[1, 25e-1, -0.5, 1E2]"
      = some (Json.arr [Json.num 1, Json.num (5 / 2), Json.num (-1 / 2), Json.num 100]) := by
  simp [parse, parseValue, parseElems, parseScalar, parseNumber, parseUnsigned, parseInt,
    parseFrac, parseExp, parseExpDigits, spanDigits, isDigit, digitsVal, skipWs, isWs]
  norm_num

end JSON

/-! ## Session store -/

theorem mkSessionId_truthy (now : Nat) (suffix : String) :
    truthyStr (mkSessionId now suffix) = true := by
  have h : (mkSessionId now suffix).data ≠ [] := by
    simp [mkSessionId, String.data_append]
  simp only [truthyStr, decide_eq_true_eq]
  intro hc
  apply h
  rw [hc]

theorem getSessionId_persists (st : Storage) (now : Nat) (suffix : String) :
    (getSessionId st now suffix).2.getItem "chatSessionId"
      = some (getSessionId st now suffix).1
    ∧ truthyStr (getSessionId st now suffix).1 = true := by
  unfold getSessionId
  cases h : st.getItem "chatSessionId" with
  | none => simp [Storage.getItem, Storage.setItem, mkSessionId_truthy]
  | some sid =>
    by_cases ht : truthyStr sid = true
    · simp [ht, h]
    · simp [ht, Storage.getItem, Storage.setItem, mkSessionId_truthy]

theorem getSessionId_of_stored (st : Storage) (now : Nat) (suffix sid : String)
    (h : st.getItem "chatSessionId" = some sid) (ht : truthyStr sid = true) :
    getSessionId st now suffix = (sid, st) := by
  unfold getSessionId
  rw [h]
  simp [ht]

/-- C1: two successive calls of `getSessionId` return the same identifier, whatever
clock value and random suffix the second call would have used. The first call
leaves its identifier persisted under `chatSessionId` (also when it had to
synthesise it), and a later call on any storage whose `chatSessionId` entry is
still the one the first call left returns that identifier and writes nothing. -/
theorem getSessionId_idempotent (st : Storage) (now1 now2 : Nat) (suffix1 suffix2 : String) :
    getSessionId (getSessionId st now1 suffix1).2 now2 suffix2
        = ((getSessionId st now1 suffix1).1, (getSessionId st now1 suffix1).2)
    ∧ (getSessionId st now1 suffix1).2.getItem "chatSessionId"
        = some (getSessionId st now1 suffix1).1
    ∧ ∀ st2 : Storage,
        st2.getItem "chatSessionId" = (getSessionId st now1 suffix1).2.getItem "chatSessionId" →
        getSessionId st2 now2 suffix2 = ((getSessionId st now1 suffix1).1, st2) := by
  obtain ⟨hp, ht⟩ := getSessionId_persists st now1 suffix1
  refine ⟨getSessionId_of_stored _ now2 suffix2 _ hp ht, hp, ?_⟩
  intro st2 h2
  exact getSessionId_of_stored st2 now2 suffix2 _ (h2.trans hp) ht

theorem stringify_truthy (log : List Message) : truthyStr (JSON.stringify log) = true := by
  simp only [truthyStr, decide_eq_true_eq]
  intro h
  have h2 := congrArg String.data h
  simp [JSON.stringify] at h2

theorem toJson_injective (a b : Message) (h : a.toJson = b.toJson) : a = b := by
  obtain ⟨r1, c1, i1, e1⟩ := a
  obtain ⟨r2, c2, i2, e2⟩ := b
  cases i1 <;> cases i2 <;> cases e1 <;> cases e2 <;> simp_all [Message.toJson]

theorem logJson_injective (a b : List Message) (h : logJson a = logJson b) : a = b := by
  simp only [logJson, Json.arr.injEq] at h
  exact List.map_injective_iff.mpr (fun x y hxy => toJson_injective x y hxy) h

theorem loadMessages_saveMessages (st : Storage) (s : String) (log : List Message) :
    loadMessages (saveMessages st s log) s = logJson log := by
  simp [loadMessages, saveMessages, Storage.getItem, Storage.setItem, stringify_truthy,
    JSON.parse_stringify]

/-- C2: for every session identifier and every message log, the empty log
included, saving the log the way the save effect does (the entry
`chatMessages_` + s set to `JSON.stringify` of the log) and then calling
`loadMessages(s)` returns the log: the value returned is the value of that log,
and of no other log. -/
theorem loadMessages_roundtrip (st : Storage) (s : String) (log : List Message) :
    loadMessages (saveMessages st s log) s = logJson log
    ∧ ∀ log2 : List Message,
        loadMessages (saveMessages st s log) s = logJson log2 ↔ log2 = log := by
  have h := loadMessages_saveMessages st s log
  refine ⟨h, fun log2 => ⟨fun h2 => ?_, fun h2 => ?_⟩⟩
  · exact logJson_injective log2 log (h2.symm.trans h)
  · rw [h2]
    exact h

/-- C3: when storage holds no `chatMessages_` + s entry, `loadMessages(s)` returns
the log of exactly one message, the assistant-role greeting; the log returned is
this same value for every such storage and identifier. -/
theorem loadMessages_absent (st : Storage) (s : String)
    (h : st.getItem ("chatMessages_" ++ s) = none) :
    loadMessages st s
      = Json.arr [Json.obj [("role", Json.str "assistant"), ("content", Json.str greetingText)]] := by
  simp [loadMessages, h, logJson, Message.toJson, greetingMessage]

/-- C3 at an empty storage. -/
theorem loadMessages_absent_witness :
    Storage.empty.getItem ("chatMessages_" ++ "session_1700000000000_k3x9q2m1z") = none
    ∧ loadMessages Storage.empty "session_1700000000000_k3x9q2m1z"
      = Json.arr [Json.obj [("role", Json.str "assistant"), ("content", Json.str greetingText)]] :=
  ⟨rfl, loadMessages_absent Storage.empty "session_1700000000000_k3x9q2m1z" rfl⟩

/-- C4: when the stored `chatMessages_` + s value is a text that `JSON.parse`
refuses, `loadMessages(s)` still returns (the function is total: the exception is
caught at line 33), and what it returns is the single greeting message. -/
theorem loadMessages_unparseable (st : Storage) (s v : String)
    (hv : st.getItem ("chatMessages_" ++ s) = some v) (hp : JSON.parse v = none) :
    loadMessages st s
      = Json.arr [Json.obj [("role", Json.str "assistant"), ("content", Json.str greetingText)]] := by
  simp only [loadMessages, hv, hp]
  cases truthyStr v <;> simp [logJson, Message.toJson, greetingMessage]

/-- C4 at a stored text that was cut off in the middle of a message. -/
theorem loadMessages_unparseable_witness :
    (Storage.empty.setItem "chatMessages_s1" "[\x7b\"role\":\"user\",").getItem
        ("chatMessages_" ++ "s1") = some "[\x7b\"role\":\"user\","
    ∧ JSON.parse "[\x7b\"role\":\"user\"," = none
    ∧ loadMessages (Storage.empty.setItem "chatMessages_s1" "[\x7b\"role\":\"user\",") "s1"
      = Json.arr [Json.obj [("role", Json.str "assistant"), ("content", Json.str greetingText)]] :=
  ⟨by decide, by rfl, loadMessages_unparseable _ "s1" "[\x7b\"role\":\"user\"," (by decide) (by rfl)⟩

/-- C5, as stated, fails: with the stored text `[]` under `chatMessages_s1`,
`loadMessages("s1")` returns the empty array. -/
theorem loadMessages_emptyArray_counterexample :
    nonEmptyLog (loadMessages (Storage.empty.setItem "chatMessages_s1" "[]") "s1") = false := by
  rfl

theorem loadMessages_of_parsed (st : Storage) (s v : String) (j : Json)
    (hv : st.getItem ("chatMessages_" ++ s) = some v) (hp : JSON.parse v = some j) :
    loadMessages st s = j := by
  unfold loadMessages
  rw [hv]
  simp only []
  by_cases ht : truthyStr v = true
  · rw [if_pos ht, hp]
  · have hempty : v = "" := by
      simpa [truthyStr] using ht
    subst hempty
    have hnone : JSON.parse "" = none := by rfl
    rw [hnone] at hp
    cases hp

/-- C5, amended: a stored `chatMessages_` + s text that `JSON.parse` accepts is
returned by `loadMessages(s)` as parsed, whatever its value, the empty array
included; without an entry, with the empty string or with a text that
`JSON.parse` refuses, the result is the greeting alone. So `loadMessages(s)`
returns a non-empty log whenever the entry is absent, is the empty string, is
refused by `JSON.parse`, or parses to a non-empty array. -/
theorem loadMessages_nonEmpty (st : Storage) (s : String) :
    (∀ v j, st.getItem ("chatMessages_" ++ s) = some v → JSON.parse v = some j →
        loadMessages st s = j)
    ∧ (st.getItem ("chatMessages_" ++ s) = none → loadMessages st s = logJson [greetingMessage])
    ∧ (∀ v, st.getItem ("chatMessages_" ++ s) = some v → (v = "" ∨ JSON.parse v = none) →
        loadMessages st s = logJson [greetingMessage])
    ∧ ((∀ v j, st.getItem ("chatMessages_" ++ s) = some v → JSON.parse v = some j →
          nonEmptyLog j = true) →
        nonEmptyLog (loadMessages st s) = true) := by
  have hfallback : ∀ v, st.getItem ("chatMessages_" ++ s) = some v →
      (v = "" ∨ JSON.parse v = none) → loadMessages st s = logJson [greetingMessage] := by
    intro v hv h
    unfold loadMessages
    rw [hv]
    simp only []
    by_cases ht : truthyStr v = true
    · rw [if_pos ht]
      rcases h with h | h
      · subst h
        cases ht
      · rw [h]
    · rw [if_neg ht]
  refine ⟨fun v j hv hp => loadMessages_of_parsed st s v j hv hp, ?_, hfallback, ?_⟩
  · intro hv
    unfold loadMessages
    rw [hv]
  · intro h
    cases hv : st.getItem ("chatMessages_" ++ s) with
    | none =>
      unfold loadMessages
      rw [hv]
      rfl
    | some v =>
      cases hp : JSON.parse v with
      | none =>
        rw [hfallback v hv (Or.inr hp)]
        rfl
      | some j =>
        rw [loadMessages_of_parsed st s v j hv hp]
        exact h v j hv hp

/-- C5, amended, at a storage that holds a saved log of two messages: the log is
returned as saved, and it is not empty. -/
theorem loadMessages_nonEmpty_witness :
    loadMessages (saveMessages Storage.empty "s1"
        [greetingMessage, { role := "user", content := "Tell me about CS 665" }]) "s1"
      = logJson [greetingMessage, { role := "user", content := "Tell me about CS 665" }]
    ∧ nonEmptyLog (loadMessages (saveMessages Storage.empty "s1"
        [greetingMessage, { role := "user", content := "Tell me about CS 665" }]) "s1") = true :=
  ⟨(loadMessages_nonEmpty (saveMessages Storage.empty "s1"
      [greetingMessage, { role := "user", content := "Tell me about CS 665" }]) "s1").1
      (JSON.stringify [greetingMessage, { role := "user", content := "Tell me about CS 665" }])
      (logJson [greetingMessage, { role := "user", content := "Tell me about CS 665" }])
      (by simp [saveMessages, Storage.getItem, Storage.setItem])
      (JSON.parse_stringify _),
   (loadMessages_nonEmpty (saveMessages Storage.empty "s1"
      [greetingMessage, { role := "user", content := "Tell me about CS 665" }]) "s1").2.2.2 (by
    intro v j hv hp
    have hv2 : JSON.stringify
        [greetingMessage, { role := "user", content := "Tell me about CS 665" }] = v := by
      simpa [saveMessages, Storage.getItem, Storage.setItem] using hv
    subst hv2
    rw [JSON.parse_stringify] at hp
    injection hp with hp
    subst hp
    rfl)⟩

theorem chatMessages_key_ne (s : String) : "chatMessages_" ++ s ≠ "chatSessionId" := by
  intro h
  have h2 := congrArg String.data h
  simp [String.data_append] at h2

/-- C6: after `startNewChat` in a session with identifier `σ.sessionId`, storage
holds neither the `chatSessionId` entry nor that session's `chatMessages_` entry,
and the state update of `startNewChat` leaves `messages` and `sessionId`, the
dependencies of the save effect, as they were, so nothing writes the entries
back. The next `getSessionId` therefore synthesises an identifier and persists it,
and `loadMessages` for that identifier returns the greeting-only log, the new
identifier being fresh: no log is stored under it (unless it is the one just
cleared). -/
theorem startNewChat_fresh_session (st : Storage) (σ : ChatState) (now : Nat) (suffix : String)
    (hfresh : st.getItem ("chatMessages_" ++ mkSessionId now suffix) = none
      ∨ mkSessionId now suffix = σ.sessionId) :
    (startNewChat st σ).1.getItem "chatSessionId" = none
    ∧ (startNewChat st σ).1.getItem ("chatMessages_" ++ σ.sessionId) = none
    ∧ saveEffectDeps (startNewChat st σ).2 = saveEffectDeps σ
    ∧ getSessionId (startNewChat st σ).1 now suffix
        = (mkSessionId now suffix,
            (startNewChat st σ).1.setItem "chatSessionId" (mkSessionId now suffix))
    ∧ loadMessages (getSessionId (startNewChat st σ).1 now suffix).2
        (getSessionId (startNewChat st σ).1 now suffix).1 = logJson [greetingMessage] := by
  have h1 : (startNewChat st σ).1.getItem "chatSessionId" = none := by
    simp [startNewChat, Storage.getItem, Storage.removeItem]
  have h4 : getSessionId (startNewChat st σ).1 now suffix
        = (mkSessionId now suffix,
            (startNewChat st σ).1.setItem "chatSessionId" (mkSessionId now suffix)) := by
    unfold getSessionId
    rw [h1]
  refine ⟨h1, ?_, rfl, h4, ?_⟩
  · simp [startNewChat, Storage.getItem, Storage.removeItem]
  · rw [h4]
    have hk := chatMessages_key_ne (mkSessionId now suffix)
    have hnone : ((startNewChat st σ).1.setItem "chatSessionId" (mkSessionId now suffix)).getItem
        ("chatMessages_" ++ mkSessionId now suffix) = none := by
      simp only [startNewChat, Storage.getItem, Storage.setItem, Storage.removeItem, hk, if_false]
      rcases hfresh with h | h
      · simp only [Storage.getItem] at h
        simp [h]
      · simp [h]
    simp [loadMessages, hnone]

/-- C6 at a session with a saved log of three messages. -/
theorem startNewChat_fresh_session_witness :
    (demoStorage.getItem ("chatMessages_" ++ mkSessionId 1700000360000 "p0w4r7t2c") = none
      ∨ mkSessionId 1700000360000 "p0w4r7t2c" = demoState.sessionId)
    ∧ loadMessages (getSessionId (startNewChat demoStorage demoState).1 1700000360000 "p0w4r7t2c").2
        (getSessionId (startNewChat demoStorage demoState).1 1700000360000 "p0w4r7t2c").1
      = logJson [greetingMessage] :=
  ⟨Or.inl (by decide),
    (startNewChat_fresh_session demoStorage demoState 1700000360000 "p0w4r7t2c"
      (Or.inl (by decide))).2.2.2.2⟩

/-! ## Feedback tracker -/

/-- C7 fails on the code: a `thumbs_up` click and a `thumbs_down` click on the same
answer, the second made before the first `submitFeedback` call has settled, both
pass the guard; when the first call settles `thumbs_up` is recorded, and when the
second settles the record is overwritten by `thumbs_down`. -/
theorem feedback_race_overwrites :
    ((FeedbackRun.run ⟨demoState, [], []⟩
        [FeedbackEvent.click demoAnswer 2 FeedbackType.thumbs_up,
         FeedbackEvent.click demoAnswer 2 FeedbackType.thumbs_down,
         FeedbackEvent.settle 0 true]).state.feedbackGiven (jsString 2)
      = some FeedbackType.thumbs_up)
    ∧ ((FeedbackRun.run ⟨demoState, [], []⟩
        [FeedbackEvent.click demoAnswer 2 FeedbackType.thumbs_up,
         FeedbackEvent.click demoAnswer 2 FeedbackType.thumbs_down,
         FeedbackEvent.settle 0 true,
         FeedbackEvent.settle 0 true]).state.feedbackGiven (jsString 2)
      = some FeedbackType.thumbs_down) := by
  decide

/-- C8: when the key of a message already has a recorded feedback type,
`handleFeedback` with any type, the same or another, issues no `submitFeedback`
request and leaves the state, `feedbackGiven` included, as it was; the buttons keep
showing the recorded type, and in a session run such a click changes nothing. -/
theorem handleFeedback_recorded_noop (σ : ChatState) (message : Message) (index : Nat)
    (feedbackType recorded : FeedbackType) (ok : Bool)
    (h : σ.feedbackGiven (jsString (idOrIndex message index)) = some recorded) :
    handleFeedback σ message index feedbackType ok = (σ, [])
    ∧ feedbackShown (handleFeedback σ message index feedbackType ok).1 message index
        = some recorded
    ∧ ∀ r : FeedbackRun, r.state = σ →
        r.step (FeedbackEvent.click message index feedbackType) = r := by
  have hs : handleFeedbackStart σ message index feedbackType = none := by
    simp [handleFeedbackStart, h]
  refine ⟨by simp [handleFeedback, hs], by simp [handleFeedback, hs, feedbackShown, h], ?_⟩
  intro r hr
  subst hr
  simp [FeedbackRun.step, hs]

/-- C8 at the message with id `42` that was rated `thumbs_up`: a `thumbs_down`
attempt sends nothing and changes nothing. -/
theorem handleFeedback_recorded_noop_witness :
    ratedState.feedbackGiven
        (jsString (idOrIndex { role := "assistant", content := "ok", id := some 42 } 3))
      = some FeedbackType.thumbs_up
    ∧ handleFeedback ratedState { role := "assistant", content := "ok", id := some 42 } 3
        FeedbackType.thumbs_down true = (ratedState, []) :=
  ⟨by decide,
    (handleFeedback_recorded_noop ratedState { role := "assistant", content := "ok", id := some 42 }
      3 FeedbackType.thumbs_down FeedbackType.thumbs_up true (by decide)).1⟩

/-- C9, as stated, fails: for a key without a record, a `handleFeedback` whose
`submitFeedback` call fails records nothing. -/
theorem handleFeedback_failed_call_counterexample :
    demoState.feedbackGiven (jsString (idOrIndex demoAnswer 2)) = none
    ∧ (handleFeedback demoState demoAnswer 2 FeedbackType.thumbs_up false).1.feedbackGiven
        (jsString (idOrIndex demoAnswer 2)) = none := by
  decide

/-- C9, amended: for a message whose key has no record, `handleFeedback` issues one
`submitFeedback` request for the message; when that call succeeds it records the
type under the key and leaves the record of every other key unchanged, and when
the call fails it leaves the state as it was. -/
theorem handleFeedback_records_on_success (σ : ChatState) (message : Message) (index : Nat)
    (feedbackType : FeedbackType)
    (h : σ.feedbackGiven (jsString (idOrIndex message index)) = none) :
    (∀ ok, (handleFeedback σ message index feedbackType ok).2
        = [{ query := userQueryAt σ.messages index
             response := message.content
             feedback_type := feedbackType
             session_id := σ.sessionId
             message_id := jsString (idOrIndex message index) }])
    ∧ (handleFeedback σ message index feedbackType true).1.feedbackGiven
        (jsString (idOrIndex message index)) = some feedbackType
    ∧ (∀ k, k ≠ jsString (idOrIndex message index) →
        (handleFeedback σ message index feedbackType true).1.feedbackGiven k = σ.feedbackGiven k)
    ∧ (handleFeedback σ message index feedbackType false).1 = σ := by
  have hs : handleFeedbackStart σ message index feedbackType
      = some { query := userQueryAt σ.messages index
               response := message.content
               feedback_type := feedbackType
               session_id := σ.sessionId
               message_id := jsString (idOrIndex message index) } := by
    simp [handleFeedbackStart, h]
  refine ⟨fun ok => by simp [handleFeedback, hs],
    by simp [handleFeedback, hs, handleFeedbackSettle], ?_,
    by simp [handleFeedback, hs, handleFeedbackSettle]⟩
  intro k hk
  simp [handleFeedback, hs, handleFeedbackSettle, hk]

/-- C9, amended, at an answer without a record whose call succeeds. -/
theorem handleFeedback_records_on_success_witness :
    demoState.feedbackGiven (jsString (idOrIndex demoAnswer 2)) = none
    ∧ (handleFeedback demoState demoAnswer 2 FeedbackType.thumbs_up true).1.feedbackGiven
        (jsString (idOrIndex demoAnswer 2)) = some FeedbackType.thumbs_up :=
  ⟨by decide,
    (handleFeedback_records_on_success demoState demoAnswer 2 FeedbackType.thumbs_up
      (by decide)).2.1⟩

/-- C10, as stated, fails: for an answer with the id `0` at index 5 the key is the
index `5`, not the id; `5` is what the request carries as `message_id` and what the
buttons read. -/
theorem zero_id_key_counterexample :
    zeroIdAnswer.id = some 0
    ∧ idOrIndex zeroIdAnswer 5 = 5
    ∧ (handleFeedbackStart demoState zeroIdAnswer 5 FeedbackType.thumbs_up).map
        FeedbackRequest.message_id = some "5"
    ∧ feedbackShown { demoState with
          feedbackGiven := fun k => if k = "5" then some FeedbackType.thumbs_up else none }
        zeroIdAnswer 5 = some FeedbackType.thumbs_up := by
  decide

theorem usesKey_idOrIndex (σ : ChatState) (message : Message) (index : Nat)
    (feedbackType : FeedbackType) :
    usesKey σ message index feedbackType (idOrIndex message index) := by
  refine ⟨rfl, ?_, ?_⟩
  · cases hg : σ.feedbackGiven (jsString (idOrIndex message index)) <;>
      simp [handleFeedbackStart, hg]
  · intro request hreq
    cases hg : σ.feedbackGiven (jsString (idOrIndex message index)) with
    | some t0 => simp [handleFeedbackStart, hg] at hreq
    | none =>
      have hreq2 := hreq
      simp only [handleFeedbackStart, hg, Option.isSome_none, Bool.false_eq_true, if_false,
        Option.some.injEq] at hreq2
      subst hreq2
      simp [handleFeedback, hreq, handleFeedbackSettle]

/-- C10, amended: the key that `handleFeedback` looks up and records under, that
the feedback buttons read, and that is sent as a string as `message_id`, is the
id of the message when that id is truthy (present and not `0`), and the log index
otherwise, also for a message whose id is `0`. -/
theorem feedback_key_truthy_id_or_index (σ : ChatState) (message : Message) (index : Nat)
    (feedbackType : FeedbackType) :
    (∀ n, message.id = some n → n ≠ 0 → usesKey σ message index feedbackType n)
    ∧ (message.id = none ∨ message.id = some 0 →
        usesKey σ message index feedbackType index) := by
  have h := usesKey_idOrIndex σ message index feedbackType
  constructor
  · intro n hn h0
    have hk : idOrIndex message index = n := by simp [idOrIndex, hn, h0]
    rwa [hk] at h
  · intro hid
    have hk : idOrIndex message index = index := by
      rcases hid with hid | hid <;> simp [idOrIndex, hid]
    rwa [hk] at h

/-! ## Notification poller -/

theorem step_inFlight_le_one (r : PollerRun) (e : PollerEvent) (h0 : r.inFlight ≤ 1)
    (hs : (!r.issues e || r.inFlight == 0) = true) : (r.step e).inFlight ≤ 1 := by
  cases e with
  | mount =>
    simp [PollerRun.issues] at hs
    simp [PollerRun.step, hs]
  | tick timer =>
    by_cases ht : timer ∈ r.timers
    · simp [PollerRun.issues, ht] at hs
      simp [PollerRun.step, ht, hs]
    · simp [PollerRun.step, ht, h0]
  | settle result =>
    cases hn : r.inFlight with
    | zero => simp [PollerRun.step, hn]
    | succ n =>
      rw [hn] at h0
      simp [PollerRun.step, hn]
      omega
  | cleanup =>
    cases hi : r.interval with
    | none => simp [PollerRun.step, hi, h0]
    | some t => simp [PollerRun.step, hi, h0]

theorem run_nil (r : PollerRun) : r.run [] = r := rfl

theorem run_cons (r : PollerRun) (e : PollerEvent) (es : List PollerEvent) :
    r.run (e :: es) = (r.step e).run es := rfl

theorem serialized_prefix_inFlight (events : List PollerEvent) :
    ∀ (r : PollerRun) (k : Nat), r.inFlight ≤ 1 → r.serialized events = true →
      (r.run (events.take k)).inFlight ≤ 1 := by
  induction events with
  | nil =>
    intro r k h0 _
    simpa [run_nil] using h0
  | cons e es ih =>
    intro r k h0 hs
    simp only [PollerRun.serialized, Bool.and_eq_true] at hs
    cases k with
    | zero => simpa [run_nil] using h0
    | succ k =>
      rw [List.take_succ_cons, run_cons]
      exact ih (r.step e) k (step_inFlight_le_one r e h0 hs.1) hs.2

theorem tick_issues (r : PollerRun) (timer : Nat) (h : timer ∈ r.timers) :
    (r.step (PollerEvent.tick timer)).inFlight = r.inFlight + 1
    ∧ (r.step (PollerEvent.tick timer)).effects
        = r.effects ++ [Effect.getNotifications r.state.sessionId] := by
  simp [PollerRun.step, h, loadNotificationsStart]

/-- C11, as stated, fails: the fetch of the mount is still in flight when the
timer fires, and the tick issues a second request. -/
theorem poller_two_in_flight_counterexample :
    (demoPoller.run [PollerEvent.mount, PollerEvent.tick 0]).inFlight = 2
    ∧ (demoPoller.run [PollerEvent.mount, PollerEvent.tick 0]).effects
        = [Effect.getNotifications demoState.sessionId,
           Effect.getNotifications demoState.sessionId] := by
  decide

/-- C11, amended: in every interleaving in which each fetch settles before the
next one is issued, at most one `getNotifications` request is in flight at any
time; the poller has no guard, so the tick of a held timer is never skipped: it
issues one more request, whatever the number in flight. -/
theorem poller_serialized_one_in_flight (r : PollerRun) (events : List PollerEvent)
    (h0 : r.inFlight ≤ 1) (hs : r.serialized events = true) :
    (∀ k, (r.run (events.take k)).inFlight ≤ 1)
    ∧ ∀ (q : PollerRun) (timer : Nat), timer ∈ q.timers →
        (q.step (PollerEvent.tick timer)).inFlight = q.inFlight + 1
        ∧ (q.step (PollerEvent.tick timer)).effects
            = q.effects ++ [Effect.getNotifications q.state.sessionId] :=
  ⟨fun k => serialized_prefix_inFlight events r k h0 hs, fun q timer h => tick_issues q timer h⟩

/-- C11, amended, at a run in which the fetch of the mount settles before the
timer fires. -/
theorem poller_serialized_one_in_flight_witness :
    demoPoller.inFlight ≤ 1
    ∧ demoPoller.serialized
        [PollerEvent.mount, PollerEvent.settle (Except.ok demoData), PollerEvent.tick 0,
         PollerEvent.settle (Except.error networkError)] = true
    ∧ ∀ k, (demoPoller.run (List.take k
        [PollerEvent.mount, PollerEvent.settle (Except.ok demoData), PollerEvent.tick 0,
         PollerEvent.settle (Except.error networkError)])).inFlight ≤ 1 :=
  ⟨by decide, by decide,
    (poller_serialized_one_in_flight demoPoller
      [PollerEvent.mount, PollerEvent.settle (Except.ok demoData), PollerEvent.tick 0,
       PollerEvent.settle (Except.error networkError)] (by decide) (by decide)).1⟩

/-- C12, as stated, fails: when the mark call fails, the handler stops at its
`await` and no refetch is issued. -/
theorem mark_failure_no_refetch_counterexample :
    (markReadClick demoState "n1" (Except.error networkError) (Except.ok demoData)).effects
        = [Effect.markNotificationAsRead "n1"]
    ∧ (markAllReadClick demoState (Except.error networkError) (Except.ok demoData)).effects
        = [Effect.markAllNotificationsAsRead demoState.sessionId] := by
  decide

/-- C12, amended: every `Mark read` and every `Mark all as read` action whose mark
call succeeds is followed by a notifications refetch, however that refetch
settles; when the mark call fails the handler rejects with the error, issues no
further call and leaves the state as it was. -/
theorem mark_then_refetch_on_success (σ : ChatState) (notificationId : String)
    (fetch : Except ApiError NotificationsData) :
    (markReadClick σ notificationId (Except.ok ()) fetch).effects
        = Effect.markNotificationAsRead notificationId
            :: Effect.getNotifications σ.sessionId :: (loadNotificationsSettle σ fetch).effects
    ∧ (markAllReadClick σ (Except.ok ()) fetch).effects
        = Effect.markAllNotificationsAsRead σ.sessionId
            :: Effect.getNotifications σ.sessionId :: (loadNotificationsSettle σ fetch).effects
    ∧ (markReadClick σ notificationId (Except.ok ()) fetch).after
        = (loadNotificationsSettle σ fetch).after
    ∧ (markAllReadClick σ (Except.ok ()) fetch).after = (loadNotificationsSettle σ fetch).after
    ∧ ∀ e : ApiError,
        (markReadClick σ notificationId (Except.error e) fetch).effects
            = [Effect.markNotificationAsRead notificationId]
        ∧ (markReadClick σ notificationId (Except.error e) fetch).after = σ
        ∧ (markReadClick σ notificationId (Except.error e) fetch).rejected = some e
        ∧ (markAllReadClick σ (Except.error e) fetch).effects
            = [Effect.markAllNotificationsAsRead σ.sessionId]
        ∧ (markAllReadClick σ (Except.error e) fetch).after = σ
        ∧ (markAllReadClick σ (Except.error e) fetch).rejected = some e := by
  refine ⟨rfl, rfl, rfl, rfl, fun e => ⟨rfl, rfl, rfl, rfl, rfl, rfl⟩⟩

theorem step_wellFormed (r : PollerRun) (e : PollerEvent) (h : r.WellFormed) :
    (r.step e).WellFormed := by
  obtain ⟨h1, h2⟩ := h
  cases e with
  | mount =>
    constructor
    · intro t ht
      simp only [PollerRun.step, List.mem_cons] at ht ⊢
      rcases ht with rfl | ht
      · omega
      · have := h1 t ht
        omega
    · intro t ht
      simp only [PollerRun.step, Option.some.injEq] at ht ⊢
      omega
  | tick timer =>
    by_cases ht : timer ∈ r.timers
    · simp only [PollerRun.step, ht, if_true]
      exact ⟨h1, h2⟩
    · simp only [PollerRun.step, ht, if_false]
      exact ⟨h1, h2⟩
  | settle result =>
    cases hn : r.inFlight with
    | zero =>
      simp only [PollerRun.step, hn]
      exact ⟨h1, h2⟩
    | succ n =>
      simp only [PollerRun.step, hn]
      exact ⟨h1, h2⟩
  | cleanup =>
    cases hi : r.interval with
    | none =>
      simp only [PollerRun.step, hi]
      exact ⟨h1, h2⟩
    | some t =>
      constructor
      · intro u hu
        simp only [PollerRun.step, hi, List.mem_filter] at hu ⊢
        exact h1 u hu.1
      · intro u hu
        simp [PollerRun.step, hi] at hu

theorem tick_not_held (q : PollerRun) (timer : Nat) (h : timer ∉ q.timers) :
    q.step (PollerEvent.tick timer) = q := by
  simp [PollerRun.step, h]

theorem run_wellFormed (events : List PollerEvent) :
    ∀ r : PollerRun, r.WellFormed → (r.run events).WellFormed := by
  induction events with
  | nil => intro r h; exact h
  | cons e es ih => intro r h; exact ih (r.step e) (step_wellFormed r e h)

theorem fresh_wellFormed (σ : ChatState) : ({ state := σ } : PollerRun).WellFormed := by
  constructor
  · intro t ht
    simp at ht
  · intro t ht
    simp at ht

/-- A timer that was handed out and is not held is not held after a step. -/
theorem step_not_held (r : PollerRun) (e : PollerEvent) (timer : Nat)
    (hlt : timer < r.nextTimer) (hno : timer ∉ r.timers) :
    timer < (r.step e).nextTimer ∧ timer ∉ (r.step e).timers := by
  cases e with
  | mount =>
    simp only [PollerRun.step, List.mem_cons, not_or]
    exact ⟨by omega, by omega, hno⟩
  | tick t =>
    by_cases ht : t ∈ r.timers
    · simpa [PollerRun.step, ht] using ⟨hlt, hno⟩
    · simpa [PollerRun.step, ht] using ⟨hlt, hno⟩
  | settle result =>
    cases hn : r.inFlight with
    | zero => simpa [PollerRun.step, hn] using ⟨hlt, hno⟩
    | succ n => simpa [PollerRun.step, hn] using ⟨hlt, hno⟩
  | cleanup =>
    cases hi : r.interval with
    | none => simpa [PollerRun.step, hi] using ⟨hlt, hno⟩
    | some t =>
      simp only [PollerRun.step, hi, List.mem_filter, not_and]
      exact ⟨hlt, fun h => absurd h hno⟩

theorem run_not_held (events : List PollerEvent) :
    ∀ (r : PollerRun) (timer : Nat), timer < r.nextTimer → timer ∉ r.timers →
      timer ∉ (r.run events).timers := by
  induction events with
  | nil => intro r timer _ hno; exact hno
  | cons e es ih =>
    intro r timer hlt hno
    obtain ⟨h1, h2⟩ := step_not_held r e timer hlt hno
    exact ih (r.step e) timer h1 h2

/-- C13: the polling effect captures the id of the timer that its `setInterval`
created, and its cleanup removes exactly that timer from the timers the browser
holds; whatever happens afterwards, also when the effect runs again, that timer is
never held again, so a later tick of it issues no request and changes nothing. -/
theorem cleanup_cancels_interval (σ : ChatState) (before later : List PollerEvent)
    (timer : Nat)
    (h : (PollerRun.run { state := σ } before).interval = some timer) :
    ((PollerRun.run { state := σ } before).step PollerEvent.cleanup).timers
        = (PollerRun.run { state := σ } before).timers.filter (fun t => t ≠ timer)
    ∧ timer ∉ (((PollerRun.run { state := σ } before).step PollerEvent.cleanup).run later).timers
    ∧ (((PollerRun.run { state := σ } before).step PollerEvent.cleanup).run later).step
          (PollerEvent.tick timer)
        = ((PollerRun.run { state := σ } before).step PollerEvent.cleanup).run later
    ∧ ∀ q : PollerRun,
        (q.step PollerEvent.mount).interval = some q.nextTimer
        ∧ (q.step PollerEvent.mount).timers = q.nextTimer :: q.timers := by
  have hwf := run_wellFormed before _ (fresh_wellFormed σ)
  generalize PollerRun.run { state := σ } before = r at h hwf
  have hlt : timer < r.nextTimer := hwf.2 timer h
  have hc : (r.step PollerEvent.cleanup).timers = r.timers.filter (fun t => t ≠ timer) := by
    simp [PollerRun.step, h]
  have hnext : (r.step PollerEvent.cleanup).nextTimer = r.nextTimer := by
    simp [PollerRun.step, h]
  have hno : timer ∉ (r.step PollerEvent.cleanup).timers := by
    rw [hc]
    simp
  have hlater := run_not_held later (r.step PollerEvent.cleanup) timer (by rw [hnext]; exact hlt) hno
  exact ⟨hc, hlater, tick_not_held _ timer hlater, fun q => ⟨rfl, rfl⟩⟩

/-- C13 at a poller whose effect ran, was cleaned up and ran again: the tick of
the first timer does nothing. -/
theorem cleanup_cancels_interval_witness :
    (PollerRun.run { state := demoState }
        [PollerEvent.mount, PollerEvent.settle (Except.ok demoData)]).interval = some 0
    ∧ 0 ∉ (((PollerRun.run { state := demoState }
        [PollerEvent.mount, PollerEvent.settle (Except.ok demoData)]).step
          PollerEvent.cleanup).run [PollerEvent.mount]).timers :=
  ⟨by decide,
    (cleanup_cancels_interval demoState
      [PollerEvent.mount, PollerEvent.settle (Except.ok demoData)] [PollerEvent.mount] 0
      (by decide)).2.1⟩

theorem or_zero_eq (n : Nat) : (if n ≠ 0 then n else 0) = n := by
  by_cases h : n = 0 <;> simp [h]

/-- C14: when `getNotifications` resolves with data `d`, `loadNotifications` sets
`notifications` to `d.notifications`, or to the empty list when the field is
missing, and `unreadCount` to `d.unread_count`, or to `0` when the field is
missing; the new values do not depend on the previous state, no other state
variable changes, and nothing is thrown. -/
theorem loadNotifications_replaces_view (σ σ2 : ChatState) (d : NotificationsData) :
    (loadNotifications σ (Except.ok d)).after.notifications = d.notifications.getD []
    ∧ (loadNotifications σ (Except.ok d)).after.unreadCount = d.unread_count.getD 0
    ∧ (loadNotifications σ2 (Except.ok d)).after.notifications
        = (loadNotifications σ (Except.ok d)).after.notifications
    ∧ (loadNotifications σ2 (Except.ok d)).after.unreadCount
        = (loadNotifications σ (Except.ok d)).after.unreadCount
    ∧ (loadNotifications σ (Except.ok d)).after
        = { σ with
            notifications := d.notifications.getD []
            unreadCount := d.unread_count.getD 0 }
    ∧ (loadNotifications σ (Except.ok d)).effects = [Effect.getNotifications σ.sessionId]
    ∧ (loadNotifications σ (Except.ok d)).rejected = none := by
  obtain ⟨ns, uc⟩ := d
  simp only [loadNotifications, loadNotificationsSettle, loadNotificationsStart, or_zero_eq]
  cases ns <;> cases uc <;> simp

/-- C15: when `getNotifications` fails, `loadNotifications` does not throw, leaves
the whole state, `notifications` and `unreadCount` included, as it was, and shows
nothing: besides the request its only effect is the error log. -/
theorem loadNotifications_failure_only_logged (σ : ChatState) (e : ApiError) :
    (loadNotifications σ (Except.error e)).rejected = none
    ∧ (loadNotifications σ (Except.error e)).after = σ
    ∧ (loadNotifications σ (Except.error e)).effects
        = [Effect.getNotifications σ.sessionId,
           Effect.consoleError "Failed to load notifications:"]
    ∧ (loadNotifications σ (Except.error e)).effects.any Effect.isAlert = false :=
  ⟨rfl, rfl, rfl, rfl⟩

/-! ## Flagging -/

theorem dropWhile_all (p : Char → Bool) (l : List Char) (h : ∀ c ∈ l, p c = true) :
    l.dropWhile p = [] := by
  induction l with
  | nil => rfl
  | cons c cs ih =>
    rw [List.dropWhile_cons, if_pos (h c (List.mem_cons_self _ _))]
    exact ih (fun d hd => h d (List.mem_cons_of_mem _ hd))

theorem jsTrim_blank (s : String) (h : ∀ c ∈ s.data, jsWhiteSpace c = true) :
    jsTrim s = "" := by
  unfold jsTrim
  rw [dropWhile_all jsWhiteSpace s.data h]
  rfl

/-- C16: for every flag reason that is empty or consists only of white space (the
characters that `trim` strips), `submitFlag` issues no `flagIncorrect` request, in
fact has no effect at all, and leaves the whole state, the flag dialog state
included, as it was. -/
theorem submitFlag_blank_reason (σ : ChatState) (result : Except ApiError Unit)
    (h : ∀ c ∈ σ.flagReason.data, jsWhiteSpace c = true) :
    (submitFlag σ result).effects = []
    ∧ (submitFlag σ result).after = σ
    ∧ (submitFlag σ result).rejected = none := by
  have ht : truthyStr (jsTrim σ.flagReason) = false := by
    rw [jsTrim_blank σ.flagReason h]
    rfl
  simp [submitFlag, ht]

/-- C16 at a reason of two spaces, a tab and a line feed. -/
theorem submitFlag_blank_reason_witness :
    (∀ c ∈ blankFlagState.flagReason.data, jsWhiteSpace c = true)
    ∧ (submitFlag blankFlagState (Except.ok ())).effects = []
    ∧ (submitFlag blankFlagState (Except.ok ())).after = blankFlagState :=
  ⟨by decide,
    (submitFlag_blank_reason blankFlagState (Except.ok ()) (by decide)).1,
    (submitFlag_blank_reason blankFlagState (Except.ok ()) (by decide)).2.1⟩

theorem jsOrStr_truthy (a : Option String) (b : String) (hb : truthyStr b = true) :
    truthyStr (jsOrStr a b) = true := by
  cases a with
  | none => simpa [jsOrStr] using hb
  | some s =>
    by_cases hs : truthyStr s = true
    · simp [jsOrStr, hs]
    · simp [jsOrStr, hs, hb]

/-- C17, as stated, fails: a failed `submitFeedback` call is only logged, and a
failed mark call is not handled at all; neither shows anything to the user and
both leave the state as it was. -/
theorem silent_failures_counterexample :
    handleFeedbackEffects demoState demoAnswer 2 FeedbackType.thumbs_up false
        = [Effect.submitFeedback
            { query := "Tell me about CS 665"
              response := "CS 665 is a graduate course."
              feedback_type := FeedbackType.thumbs_up
              session_id := "session_1700000000000_k3x9q2m1z"
              message_id := "2" },
           Effect.consoleError "Failed to submit feedback:"]
    ∧ (handleFeedbackEffects demoState demoAnswer 2 FeedbackType.thumbs_up false).any
        Effect.isAlert = false
    ∧ (markReadClick demoState "n1" (Except.error networkError) (Except.ok demoData)).effects.any
        Effect.isAlert = false := by
  decide

/-- C17, amended: a failure of the flag call results in an alert and a failure of
the review call in the inline error of the dashboard, each with a readable text;
a failure of the feedback call is only logged and a failure of a mark call is
not handled by its handler: these show no message and leave the state as it
was. -/
theorem flag_and_review_failures_shown (σ : ChatState) (flagged : Message) (e : ApiError)
    (hreason : truthyStr (jsTrim σ.flagReason) = true)
    (hflagged : σ.flaggedMessage = some flagged) :
    Effect.alert ("Failed to submit flag: " ++ jsOrStr e.detail e.message)
        ∈ (submitFlag σ (Except.error e)).effects
    ∧ (∀ (d : Dashboard) (correctionId : String) (action : ReviewAction)
        (correctedText : Option String) (results : LoadResults),
        (handleReview d correctionId action correctedText (Except.error e) results).after.state.error
            = jsOrStr e.error "Failed to review correction"
        ∧ (handleReview d correctionId action correctedText (Except.error e)
            results).after.state.showsError = true)
    ∧ (∀ (message : Message) (index : Nat) (feedbackType : FeedbackType),
        (handleFeedbackEffects σ message index feedbackType false).any Effect.isAlert = false
        ∧ (handleFeedback σ message index feedbackType false).1 = σ)
    ∧ ∀ (notificationId : String) (fetch : Except ApiError NotificationsData),
        (markReadClick σ notificationId (Except.error e) fetch).effects.any Effect.isAlert = false
        ∧ (markReadClick σ notificationId (Except.error e) fetch).after = σ
        ∧ (markAllReadClick σ (Except.error e) fetch).effects.any Effect.isAlert = false
        ∧ (markAllReadClick σ (Except.error e) fetch).after = σ := by
  refine ⟨?_, ?_, ?_, ?_⟩
  · simp [submitFlag, hreason, hflagged]
  · intro d correctionId action correctedText results
    refine ⟨rfl, ?_⟩
    exact jsOrStr_truthy e.error "Failed to review correction" (by decide)
  · intro message index feedbackType
    cases hs : handleFeedbackStart σ message index feedbackType with
    | none => simp [handleFeedbackEffects, handleFeedback, hs]
    | some request =>
      simp [handleFeedbackEffects, handleFeedback, hs, handleFeedbackSettle, Effect.isAlert]
  · intro notificationId fetch
    exact ⟨rfl, rfl, rfl, rfl⟩

/-- C17, amended, at a flag with the reason `wrong semester` whose call fails
without a response. -/
theorem flag_and_review_failures_shown_witness :
    truthyStr (jsTrim flagState.flagReason) = true
    ∧ flagState.flaggedMessage = some demoAnswer
    ∧ Effect.alert ("Failed to submit flag: " ++ jsOrStr networkError.detail networkError.message)
        ∈ (submitFlag flagState (Except.error networkError)).effects :=
  ⟨by decide, rfl,
    (flag_and_review_failures_shown flagState demoAnswer networkError (by decide) rfl).1⟩

/-! ## Review console -/

theorem loadData_no_review (d : Dashboard) (results : LoadResults) :
    (loadData d results).effects.filterMap Effect.reviewRequest = [] := by
  unfold loadData
  split <;> split <;> first
    | rfl
    | (unfold loadDataFailed; split <;> rfl)

theorem handleReview_requests (d : Dashboard) (correctionId : String) (action : ReviewAction)
    (correctedText : Option String) (review : Except ApiError Unit) (results : LoadResults) :
    (handleReview d correctionId action correctedText review results).effects.filterMap
        Effect.reviewRequest
      = [{ correctionId := correctionId, action := action,
           corrected_response := some (correctedText.getD "") }] := by
  cases review with
  | error e => rfl
  | ok u =>
    simp only [handleReview, List.filterMap_cons, Effect.reviewRequest, reviewCorrection,
      loadData_no_review]

/-- C18, as stated, fails: the request of an approval without editing carries the
empty string as `corrected_response`, not `null`. -/
theorem approve_sends_empty_text_counterexample :
    ((handleReview demoDashboard demoCorrection._id ReviewAction.approve none (Except.ok ())
        demoResults).effects.filterMap Effect.reviewRequest).map
          ReviewRequest.corrected_response = [some ""] := by
  decide

/-- C18, amended: approving a pending correction without editing
(`handleReview(c._id, 'approve')`) issues exactly one review request for that
correction, with the action `approve` and with the empty string `''`, the default
of the third parameter of `handleReview`, as `corrected_response`. -/
theorem approve_without_edit_request (d : Dashboard) (c : Correction)
    (review : Except ApiError Unit) (results : LoadResults) :
    (handleReview d c._id ReviewAction.approve none review results).effects.filterMap
        Effect.reviewRequest
      = [{ correctionId := c._id, action := ReviewAction.approve, corrected_response := some "" }] :=
  handleReview_requests d c._id ReviewAction.approve none review results

/-- C19: `startCorrection(c)` sets `editingId` to `c._id` and the draft buffer
`correctedResponse` to `c.botResponse`; it issues no call, has no other effect,
and leaves the storage and the other state variables as they were. -/
theorem startCorrection_enters_editing (d : Dashboard) (c : Correction) :
    (startCorrection d c).after.state.editingId = some c._id
    ∧ (startCorrection d c).after.state.correctedResponse = c.botResponse
    ∧ (startCorrection d c).effects = []
    ∧ (startCorrection d c).rejected = none
    ∧ (startCorrection d c).after
        = { d with state := { d.state with editingId := some c._id,
                                           correctedResponse := c.botResponse } } :=
  ⟨rfl, rfl, rfl, rfl, rfl⟩

/-- C20: `submitCorrection(c._id)` issues exactly one review request, for that
correction, with the action `approve` and with `corrected_response` equal to the
text of the draft buffer at the moment of the call, however the request and the
refetch after it settle. -/
theorem submitCorrection_sends_draft (d : Dashboard) (c : Correction)
    (review : Except ApiError Unit) (results : LoadResults) :
    (submitCorrection d c._id review results).effects.filterMap Effect.reviewRequest
      = [{ correctionId := c._id, action := ReviewAction.approve,
           corrected_response := some d.state.correctedResponse }] :=
  handleReview_requests d c._id ReviewAction.approve (some d.state.correctedResponse) review
    results

/-! ## Review console: cancelling, rejecting, refetching and failures -/

/-- C21: cancelling an edit sets `editingId` to `null` and the draft buffer to the
empty string, so that every correction is in the pending view state; it issues no
call, has no other effect, and leaves the corrections list, the other state
variables and the storage as they were. -/
theorem cancelCorrection_discards_draft (d : Dashboard) :
    (cancelCorrection d).after.state.editingId = none
    ∧ (cancelCorrection d).after.state.correctedResponse = ""
    ∧ (∀ c : Correction, viewState (cancelCorrection d).after.state c = ViewState.pending)
    ∧ (cancelCorrection d).effects = []
    ∧ (cancelCorrection d).rejected = none
    ∧ (cancelCorrection d).after.state.corrections = d.state.corrections
    ∧ (cancelCorrection d).after
        = { d with state := { d.state with editingId := none, correctedResponse := "" } } := by
  refine ⟨rfl, rfl, fun c => ?_, rfl, rfl, rfl, rfl⟩
  simp [viewState, cancelCorrection]

/-- C22, as stated, fails: the request of a rejection carries the empty string
as `corrected_response`, not `null`. -/
theorem reject_sends_empty_text_counterexample :
    ((handleReview demoDashboard demoCorrection._id ReviewAction.reject none (Except.ok ())
        demoResults).effects.filterMap Effect.reviewRequest).map
          ReviewRequest.corrected_response = [some ""] := by
  decide

/-- C22, amended: rejecting a pending correction (`handleReview(c._id, 'reject')`)
issues exactly one review request for that correction, with the action `reject`
and with the empty string `''`, the default of the third parameter of
`handleReview`, as `corrected_response`. -/
theorem reject_request (d : Dashboard) (c : Correction)
    (review : Except ApiError Unit) (results : LoadResults) :
    (handleReview d c._id ReviewAction.reject none review results).effects.filterMap
        Effect.reviewRequest
      = [{ correctionId := c._id, action := ReviewAction.reject, corrected_response := some "" }] :=
  handleReview_requests d c._id ReviewAction.reject none review results

theorem showsCorrections_tab (σ : DashboardState) (h : σ.showsCorrections = true) :
    σ.activeTab = Tab.corrections := by
  simp only [DashboardState.showsCorrections, Bool.and_eq_true, decide_eq_true_eq] at h
  exact h.2

/-- C23: where the review buttons are rendered (the corrections tab is active),
a `handleReview` whose review call succeeds issues the review request and then
`getPendingCorrections`, and nothing else; when that fetch succeeds, the
corrections list is the fetched list, whatever the list was before, and in any
case the editor is reset: `editingId` is `null` and the draft is empty. -/
theorem handleReview_refetches (d : Dashboard) (correctionId : String) (action : ReviewAction)
    (correctedText : Option String) (results : LoadResults)
    (hshown : d.state.showsCorrections = true) :
    ((handleReview d correctionId action correctedText (Except.ok ()) results).effects.filter
        Effect.isCall
      = [Effect.reviewCorrection
          (reviewCorrection correctionId action (some (correctedText.getD ""))),
         Effect.getPendingCorrections])
    ∧ (∀ fetched, results.pending = Except.ok fetched →
        (handleReview d correctionId action correctedText (Except.ok ())
            results).after.state.corrections = fetched
        ∧ (handleReview d correctionId action correctedText (Except.ok ()) results).effects
            = [Effect.reviewCorrection
                (reviewCorrection correctionId action (some (correctedText.getD ""))),
               Effect.getPendingCorrections])
    ∧ (handleReview d correctionId action correctedText (Except.ok ())
        results).after.state.editingId = none
    ∧ (handleReview d correctionId action correctedText (Except.ok ())
        results).after.state.correctedResponse = "" := by
  have htab := showsCorrections_tab d.state hshown
  refine ⟨?_, ?_, rfl, rfl⟩
  · cases hp : results.pending with
    | ok data => simp [handleReview, loadData, htab, hp, Effect.isCall]
    | error e =>
      by_cases h401 : e.status = some 401 <;>
        simp [handleReview, loadData, loadDataFailed, htab, hp, h401, Effect.isCall]
  · intro fetched hp
    simp [handleReview, loadData, htab, hp]

/-- C23 at a dashboard with one pending correction whose approval succeeds and
whose refetch returns the empty list. -/
theorem handleReview_refetches_witness :
    demoDashboard.state.showsCorrections = true
    ∧ (handleReview demoDashboard "c1" ReviewAction.approve none (Except.ok ())
        demoResults).after.state.corrections = [] :=
  ⟨by decide,
    ((handleReview_refetches demoDashboard "c1" ReviewAction.approve none demoResults
      (by decide)).2.1 [] rfl).1⟩

/-- C24, as stated, fails: when the review call of a submit from the editor
fails, the correction stays in the editing state, with its draft. -/
theorem failed_submit_keeps_editing_counterexample :
    viewState (submitCorrection editingDashboard otherCorrection._id
        (Except.error networkError) demoResults).after.state otherCorrection
      = ViewState.editing "Professor B teaches CS 673." := by
  decide

/-- C24, amended: when the review call fails, whichever transition it was
submitted from, every correction is left in the view state it had (pending after
approve or reject, editing with its draft after a submit from the editor), the
corrections list and the storage are unchanged, the inline error is set and shown,
and the review request is the only effect: no retry and no refetch. -/
theorem handleReview_failure (d : Dashboard) (correctionId : String) (action : ReviewAction)
    (correctedText : Option String) (e : ApiError) (results : LoadResults) :
    (∀ c : Correction,
        viewState (handleReview d correctionId action correctedText (Except.error e)
          results).after.state c = viewState d.state c)
    ∧ (handleReview d correctionId action correctedText (Except.error e)
        results).after.state.corrections = d.state.corrections
    ∧ (handleReview d correctionId action correctedText (Except.error e) results).after.storage
        = d.storage
    ∧ (handleReview d correctionId action correctedText (Except.error e) results).after.state.error
        = jsOrStr e.error "Failed to review correction"
    ∧ (handleReview d correctionId action correctedText (Except.error e)
        results).after.state.showsError = true
    ∧ (handleReview d correctionId action correctedText (Except.error e) results).effects
        = [Effect.reviewCorrection
            (reviewCorrection correctionId action (some (correctedText.getD "")))]
    ∧ (submitCorrection d correctionId (Except.error e) results).after.state.editingId
        = d.state.editingId
    ∧ (submitCorrection d correctionId (Except.error e) results).after.state.correctedResponse
        = d.state.correctedResponse := by
  refine ⟨fun c => rfl, rfl, rfl, rfl, ?_, rfl, rfl, rfl⟩
  exact jsOrStr_truthy e.error "Failed to review correction" (by decide)

theorem loadData_unauthorized (d : Dashboard) (results : LoadResults) (e : ApiError)
    (h401 : e.status = some 401)
    (hfail : results.pending = Except.error e ∧ results.stats = Except.error e
      ∧ results.trending = Except.error e) :
    (loadData d results).after.storage = d.storage.removeItem "professorToken"
    ∧ Effect.navigate "/professor" ∈ (loadData d results).effects := by
  obtain ⟨h1, h2, h3⟩ := hfail
  unfold loadData
  split <;> simp [h1, h2, h3, loadDataFailed, h401]

/-- C25 fails on the code: a review call that fails with the status 401 only sets
the inline error; the stored `professorToken` stays and nothing navigates to
`/professor`. The same failure of the call of `loadData` does both. -/
theorem handleReview_unauthorized_keeps_token :
    (handleReview demoDashboard "c1" ReviewAction.approve none (Except.error unauthorizedError)
        demoResults).after.storage.getItem "professorToken" = some "token"
    ∧ (handleReview demoDashboard "c1" ReviewAction.approve none (Except.error unauthorizedError)
        demoResults).effects
        = [Effect.reviewCorrection
            { correctionId := "c1", action := ReviewAction.approve, corrected_response := some "" }]
    ∧ (handleReview demoDashboard "c1" ReviewAction.approve none (Except.error unauthorizedError)
        demoResults).after.state.error = "Failed to review correction"
    ∧ (loadData demoDashboard
        { demoResults with pending := Except.error unauthorizedError }).after.storage.getItem
          "professorToken" = none
    ∧ (loadData demoDashboard { demoResults with pending := Except.error unauthorizedError }).effects
        = [Effect.getPendingCorrections, Effect.navigate "/professor"] := by
  decide

/-- C28, as stated, fails: while a second correction is being edited, starting an
edit on the first, or approving the first, puts the second back to pending and
drops its draft. -/
theorem single_editor_counterexample :
    demoCorrection._id ≠ otherCorrection._id
    ∧ viewState editingDashboard.state otherCorrection
        = ViewState.editing "Professor B teaches CS 673."
    ∧ viewState (consoleAct editingDashboard demoCorrection ConsoleAction.edit (Except.ok ())
        demoResults).after.state otherCorrection = ViewState.pending
    ∧ viewState (consoleAct editingDashboard demoCorrection ConsoleAction.approve (Except.ok ())
        demoResults).after.state otherCorrection = ViewState.pending := by
  decide

/-- C28, amended: the review console keeps one editor for the whole list (one
`editingId` and one draft), so two distinct corrections are never both in the
editing state. An action on A leaves a pending B pending; starting an edit on A,
cancelling, or an approve, reject or submit on A whose call succeeds puts B in the
pending state, also when B was being edited; an approve, reject or submit whose
call fails leaves the view state of B as it was. -/
theorem single_editor (d : Dashboard) (a b : Correction) (hab : a._id ≠ b._id) :
    ¬ (viewState d.state a ≠ ViewState.pending ∧ viewState d.state b ≠ ViewState.pending)
    ∧ (∀ action review results, viewState d.state b = ViewState.pending →
        viewState (consoleAct d a action review results).after.state b = ViewState.pending)
    ∧ (∀ review results,
        viewState (consoleAct d a ConsoleAction.edit review results).after.state b
          = ViewState.pending
        ∧ viewState (consoleAct d a ConsoleAction.cancel review results).after.state b
          = ViewState.pending)
    ∧ (∀ action results, action ≠ ConsoleAction.edit →
        viewState (consoleAct d a action (Except.ok ()) results).after.state b
          = ViewState.pending)
    ∧ ∀ action e results, action ≠ ConsoleAction.edit → action ≠ ConsoleAction.cancel →
        viewState (consoleAct d a action (Except.error e) results).after.state b
          = viewState d.state b := by
  have hne : some a._id ≠ some b._id := fun h => hab (Option.some.inj h)
  have hedit : ∀ review results,
      viewState (consoleAct d a ConsoleAction.edit review results).after.state b
        = ViewState.pending := by
    intro review results
    simp [viewState, consoleAct, startCorrection, hab]
  have hcancel : ∀ review results,
      viewState (consoleAct d a ConsoleAction.cancel review results).after.state b
        = ViewState.pending := by
    intro review results
    simp [viewState, consoleAct, cancelCorrection]
  have hok : ∀ action results, action ≠ ConsoleAction.edit →
      viewState (consoleAct d a action (Except.ok ()) results).after.state b
        = ViewState.pending := by
    intro action results hact
    cases action with
    | edit => exact absurd rfl hact
    | cancel => exact hcancel _ _
    | approve => simp [viewState, consoleAct, handleReview]
    | reject => simp [viewState, consoleAct, handleReview]
    | submit => simp [viewState, consoleAct, submitCorrection, handleReview]
  have herr : ∀ action e results, action ≠ ConsoleAction.edit → action ≠ ConsoleAction.cancel →
      viewState (consoleAct d a action (Except.error e) results).after.state b
        = viewState d.state b := by
    intro action e results h1 h2
    cases action with
    | edit => exact absurd rfl h1
    | cancel => exact absurd rfl h2
    | approve => rfl
    | reject => rfl
    | submit => rfl
  refine ⟨?_, ?_, fun review results => ⟨hedit review results, hcancel review results⟩, hok, herr⟩
  · rintro ⟨ha, hb⟩
    unfold viewState at ha hb
    by_cases h1 : d.state.editingId = some a._id
    · have h2 : d.state.editingId ≠ some b._id := by
        rw [h1]
        exact hne
      simp [h2] at hb
    · simp [h1] at ha
  · intro action review results hpend
    cases action with
    | edit => exact hedit review results
    | cancel => exact hcancel review results
    | approve =>
      cases review with
      | ok u => exact hok ConsoleAction.approve results (by decide)
      | error e => rw [herr ConsoleAction.approve e results (by decide) (by decide)]; exact hpend
    | reject =>
      cases review with
      | ok u => exact hok ConsoleAction.reject results (by decide)
      | error e => rw [herr ConsoleAction.reject e results (by decide) (by decide)]; exact hpend
    | submit =>
      cases review with
      | ok u => exact hok ConsoleAction.submit results (by decide)
      | error e => rw [herr ConsoleAction.submit e results (by decide) (by decide)]; exact hpend

/-- C28, amended, at two pending corrections of which the second is being
edited: a failed approval of the first leaves the second in the editing state. -/
theorem single_editor_witness :
    demoCorrection._id ≠ otherCorrection._id
    ∧ viewState (consoleAct editingDashboard demoCorrection ConsoleAction.approve
        (Except.error networkError) demoResults).after.state otherCorrection
      = viewState editingDashboard.state otherCorrection :=
  ⟨by decide,
    (single_editor editingDashboard demoCorrection otherCorrection (by decide)).2.2.2.2
      ConsoleAction.approve networkError demoResults (by decide) (by decide)⟩

/-! ## Sending a message: the log, the history and the alternation of roles -/

theorem handleSendStart_pass (σ : ChatState)
    (hinput : truthyStr (jsTrim σ.input) = true) (hidle : σ.loading = false) :
    handleSendStart σ
      = ({ σ with input := "", showWelcome := false,
                  messages := σ.messages ++ [userEntry (jsTrim σ.input)], loading := true },
         [Effect.chat (jsTrim σ.input) (chatHistory σ.messages) σ.sessionId]) := by
  simp [handleSendStart, hinput, hidle]

theorem handleSendStart_blocked (σ : ChatState)
    (h : (!truthyStr (jsTrim σ.input) || σ.loading) = true) :
    handleSendStart σ = (σ, []) := by
  simp only [handleSendStart, h, if_true]

theorem handleSendSettle_messages (σ : ChatState) (result : Except ApiError ChatResponse)
    (now : Nat) :
    (handleSendSettle σ result now).messages = σ.messages ++ [replyEntry result now]
    ∧ (handleSendSettle σ result now).loading = false := by
  cases result with
  | ok response => exact ⟨rfl, rfl⟩
  | error e => exact ⟨rfl, rfl⟩

/-- C26: a `handleSend` that passes its guard (the trimmed input `u` is not empty
and nothing is loading) on a log `L` makes the log `L ++ [user u]` and issues one
chat call; when the call settles, exactly one assistant entry is appended to the
log of that moment, the response on success and the error message on failure, so
that the log is `L ++ [user u, a]`. The entries of `L` stay, in their order, as a
prefix. -/
theorem handleSend_appends (σ : ChatState) (result : Except ApiError ChatResponse) (now : Nat)
    (hinput : truthyStr (jsTrim σ.input) = true) (hidle : σ.loading = false) :
    (handleSendStart σ).1.messages = σ.messages ++ [userEntry (jsTrim σ.input)]
    ∧ (handleSendStart σ).2
        = [Effect.chat (jsTrim σ.input) (chatHistory σ.messages) σ.sessionId]
    ∧ (handleSend σ result now).effects
        = [Effect.chat (jsTrim σ.input) (chatHistory σ.messages) σ.sessionId]
    ∧ (handleSend σ result now).after.messages
        = σ.messages ++ [userEntry (jsTrim σ.input), replyEntry result now]
    ∧ (∀ τ : ChatState,
        (handleSendSettle τ result now).messages = τ.messages ++ [replyEntry result now])
    ∧ (userEntry (jsTrim σ.input)).role = "user"
    ∧ (replyEntry result now).role = "assistant"
    ∧ (∀ response, result = Except.ok response →
        (replyEntry result now).content = response.response
        ∧ (replyEntry result now).error = false)
    ∧ (∀ e, result = Except.error e →
        (replyEntry result now).content = "Sorry, I encountered an error. Please try again."
        ∧ (replyEntry result now).error = true)
    ∧ σ.messages <+: (handleSend σ result now).after.messages := by
  have hstart := handleSendStart_pass σ hinput hidle
  have hguard : (!truthyStr (jsTrim σ.input) || σ.loading) = false := by
    simp [hinput, hidle]
  have hafter : (handleSend σ result now).after.messages
      = σ.messages ++ [userEntry (jsTrim σ.input), replyEntry result now] := by
    simp only [handleSend, hguard, Bool.false_eq_true, if_false]
    rw [(handleSendSettle_messages _ result now).1, hstart]
    simp
  refine ⟨by rw [hstart], by rw [hstart], ?_, hafter,
    fun τ => (handleSendSettle_messages τ result now).1, rfl, ?_, ?_, ?_, ?_⟩
  · simp only [handleSend, hguard, Bool.false_eq_true, if_false]
    rw [hstart]
  · cases result <;> rfl
  · intro response h
    subst h
    exact ⟨rfl, rfl⟩
  · intro e h
    subst h
    exact ⟨rfl, rfl⟩
  · rw [hafter]
    exact List.prefix_append _ _

/-- C26 at a chat of three entries with a typed question, whose call succeeds. -/
theorem handleSend_appends_witness :
    truthyStr (jsTrim typedState.input) = true ∧ typedState.loading = false
    ∧ (handleSend typedState (Except.ok demoReply) 1700000005000).after.messages
        = typedState.messages
          ++ [userEntry (jsTrim typedState.input),
              replyEntry (Except.ok demoReply) 1700000005000] :=
  ⟨by decide, by decide,
    (handleSend_appends typedState (Except.ok demoReply) 1700000005000
      (by decide) (by decide)).2.2.2.1⟩

/-- C27: the detail view shows the corrected text of the professor exactly when
`corrected_response` is a text that is not empty; otherwise it shows the notice
that the original response was verified for the status `approved`, the rejection
notice for the status `rejected`, and nothing for any other status. The record
shown is the one that `viewCorrectionDetails` fetched. -/
theorem detailBlock_cases (d : CorrectionDetails) :
    (∀ text, detailBlock d = DetailBlock.correctedResponse text
        ↔ d.corrected_response = some text ∧ text ≠ "")
    ∧ ((d.corrected_response = none ∨ d.corrected_response = some "") →
        detailBlock d
          = if d.status = "approved" then DetailBlock.verifiedNotice
            else if d.status = "rejected" then DetailBlock.rejectedNotice
            else DetailBlock.nothing)
    ∧ ((d.corrected_response = none ∨ d.corrected_response = some "") →
        d.status = "approved" → detailBlock d = DetailBlock.verifiedNotice)
    ∧ ∀ (σ : ChatState) (correctionId : String), truthyStr correctionId = true →
        shownDetails (viewCorrectionDetails σ correctionId (Except.ok d)).after = some d := by
  have hrest : (d.corrected_response = none ∨ d.corrected_response = some "") →
      detailBlock d
        = if d.status = "approved" then DetailBlock.verifiedNotice
          else if d.status = "rejected" then DetailBlock.rejectedNotice
          else DetailBlock.nothing := by
    intro h
    rcases h with h | h <;> simp [detailBlock, h, truthyStr]
  refine ⟨?_, hrest, ?_, ?_⟩
  · intro text
    unfold detailBlock
    cases hc : d.corrected_response with
    | none =>
      simp only [false_and, iff_false, reduceCtorEq]
      split <;> [simp; (split <;> simp)]
    | some t =>
      by_cases ht : t = ""
      · subst ht
        simp only [truthyStr, ne_eq, not_true_eq_false, decide_False, Bool.false_eq_true,
          if_false, Option.some.injEq]
        constructor
        · intro h
          split at h
          · cases h
          · split at h <;> cases h
        · rintro ⟨h1, h2⟩
          exact absurd h1.symm h2
      · simp only [truthyStr, ne_eq, ht, not_false_eq_true, decide_True, if_true,
          DetailBlock.correctedResponse.injEq, Option.some.injEq]
        constructor
        · intro h
          subst h
          exact ⟨rfl, ht⟩
        · intro h
          exact h.1
  · intro h hs
    rw [hrest h, if_pos hs]
  · intro σ correctionId hid
    simp [shownDetails, viewCorrectionDetails, hid]

theorem sliceLast_length {α : Type} (n : Nat) (list : List α) :
    (sliceLast n list).length = min n list.length := by
  simp only [sliceLast, List.length_drop]
  omega

/-- C29: the history given to the chat call by a `handleSend` that passes its
guard on the log `L` is made of the last `min(6, |L| - 1)` entries of `L` without
its first entry, in the order of the log, each as the pair of its role and its
content. It is built from `L`, the log before the message being sent is appended,
starts at an index of `L` that is at least 1, and has at most 6 entries. -/
theorem chat_history (σ : ChatState)
    (hinput : truthyStr (jsTrim σ.input) = true) (hidle : σ.loading = false) :
    (handleSendStart σ).2
        = [Effect.chat (jsTrim σ.input) (chatHistory σ.messages) σ.sessionId]
    ∧ chatHistory σ.messages
        = (σ.messages.drop (max 1 (σ.messages.length - 6))).map
            (fun msg => (msg.role, msg.content))
    ∧ (chatHistory σ.messages).length = min 6 (σ.messages.length - 1)
    ∧ (chatHistory σ.messages).length ≤ 6
    ∧ (∀ j, j < (chatHistory σ.messages).length →
        (chatHistory σ.messages)[j]?
          = (σ.messages[max 1 (σ.messages.length - 6) + j]?).map
              (fun msg => (msg.role, msg.content)))
    ∧ (handleSendStart σ).1.messages = σ.messages ++ [userEntry (jsTrim σ.input)] := by
  have hstart := handleSendStart_pass σ hinput hidle
  have heq : chatHistory σ.messages
      = (σ.messages.drop (max 1 (σ.messages.length - 6))).map
          (fun msg => (msg.role, msg.content)) := by
    simp only [chatHistory, sliceLast, List.drop_drop, List.length_drop]
    congr 2
    omega
  have hlen : (chatHistory σ.messages).length = min 6 (σ.messages.length - 1) := by
    simp only [chatHistory, List.length_map, sliceLast_length, List.length_drop]
  refine ⟨by rw [hstart], heq, hlen, ?_, ?_, by rw [hstart]⟩
  · rw [hlen]
    exact Nat.min_le_left _ _
  · intro j _
    rw [heq, List.getElem?_map, List.getElem?_drop]

/-- C29 at a chat of three entries: the history is the two entries after the
greeting. -/
theorem chat_history_witness :
    truthyStr (jsTrim typedState.input) = true ∧ typedState.loading = false
    ∧ (chatHistory typedState.messages).length = min 6 (typedState.messages.length - 1) :=
  ⟨by decide, by decide, (chat_history typedState (by decide) (by decide)).2.2.1⟩

theorem rolesAlternate_append (log : List Message) (m : Message) (h : RolesAlternate log)
    (hm : m.role = if log.length % 2 = 0 then "assistant" else "user") :
    RolesAlternate (log ++ [m]) := by
  intro i x hx
  rcases Nat.lt_trichotomy i log.length with hlt | heq | hgt
  · rw [List.getElem?_append_left hlt] at hx
    exact h i x hx
  · subst heq
    rw [List.getElem?_append_right (Nat.le_refl _)] at hx
    simp only [Nat.sub_self, List.getElem?_cons_zero, Option.some.injEq] at hx
    subst hx
    exact hm
  · rw [List.getElem?_append_right (Nat.le_of_lt hgt)] at hx
    have hpos : i - log.length = (i - log.length - 1) + 1 := by omega
    rw [hpos] at hx
    simp at hx

theorem idsOnAnswers_append (log : List Message) (m : Message) (h : IdsOnAnswers log)
    (hm : m.id.isSome = true → m.role = "assistant" ∧ m.error = false) :
    IdsOnAnswers (log ++ [m]) := by
  intro x hx
  rcases List.mem_append.mp hx with hx | hx
  · exact h x hx
  · rw [List.mem_singleton] at hx
    subst hx
    exact hm

theorem head_append_of_head (log : List Message) (m g : Message)
    (h : log.head? = some g) : (log ++ [m]).head? = some g := by
  cases log with
  | nil => cases h
  | cons a rest => exact h

theorem freshChat_sendInv (sessionId : String) :
    SendInv { state := freshChat sessionId } := by
  refine ⟨rfl, ?_, ?_, rfl, ?_⟩
  · intro i m hm
    cases i with
    | zero =>
      simp only [freshChat, List.getElem?_cons_zero, Option.some.injEq] at hm
      subst hm
      rfl
    | succ j => simp [freshChat] at hm
  · intro m hm
    simp only [freshChat, List.mem_singleton] at hm
    subst hm
    intro hid
    cases hid
  · simp [freshChat]

theorem step_sendInv (r : SendRun) (event : SendEvent) (h : SendInv r) :
    SendInv (r.step event) := by
  obtain ⟨hhead, hroles, hids, hload, hpend⟩ := h
  cases event with
  | typed text => exact ⟨hhead, hroles, hids, hload, hpend⟩
  | quickQuestion question => exact ⟨hhead, hroles, hids, hload, hpend⟩
  | suggestedQuestion question => exact ⟨hhead, hroles, hids, hload, hpend⟩
  | send =>
    by_cases hguard : (!truthyStr (jsTrim r.state.input) || r.state.loading) = true
    · have hs := handleSendStart_blocked r.state hguard
      simp only [SendRun.step, hs, List.isEmpty_nil, Bool.not_true, Bool.or_false]
      exact ⟨hhead, hroles, hids, hload, hpend⟩
    · simp only [Bool.or_eq_true, Bool.not_eq_true', not_or, Bool.not_eq_false,
        Bool.not_eq_true] at hguard
      obtain ⟨hinput, hidle⟩ := hguard
      have hs := handleSendStart_pass r.state hinput hidle
      have hnp : r.pending = false := by rw [← hload]; exact hidle
      have hodd : r.state.messages.length % 2 ≠ 0 := by
        intro h0
        have := hpend.mpr h0
        rw [hnp] at this
        cases this
      simp only [SendRun.step, hs, List.isEmpty_cons, Bool.not_false, Bool.or_true]
      refine ⟨head_append_of_head _ _ _ hhead, ?_, ?_, rfl, ?_⟩
      · apply rolesAlternate_append _ _ hroles
        rw [if_neg hodd]
        rfl
      · apply idsOnAnswers_append _ _ hids
        intro hid
        cases hid
      · simp only [List.length_append, List.length_singleton, true_iff]
        omega
  | settle result now =>
    by_cases hp : r.pending = true
    · have heven := hpend.mp hp
      have hm := handleSendSettle_messages r.state result now
      simp only [SendRun.step, hp, if_true]
      refine ⟨?_, ?_, ?_, hm.2, ?_⟩
      · show (handleSendSettle r.state result now).messages.head? = some greetingMessage
        rw [hm.1]
        exact head_append_of_head _ _ _ hhead
      · show RolesAlternate (handleSendSettle r.state result now).messages
        rw [hm.1]
        apply rolesAlternate_append _ _ hroles
        rw [if_pos heven]
        cases result <;> rfl
      · show IdsOnAnswers (handleSendSettle r.state result now).messages
        rw [hm.1]
        apply idsOnAnswers_append _ _ hids
        intro hid
        cases result with
        | ok response => exact ⟨rfl, rfl⟩
        | error e => cases hid
      · show (false = true) ↔ (handleSendSettle r.state result now).messages.length % 2 = 0
        rw [hm.1]
        simp only [List.length_append, List.length_singleton, Bool.false_eq_true, false_iff]
        omega
    · simp only [SendRun.step, hp, Bool.false_eq_true, if_false]
      exact ⟨hhead, hroles, hids, hload, hpend⟩

theorem run_sendInv (events : List SendEvent) (r : SendRun) (h : SendInv r) :
    SendInv (r.run events) := by
  induction events generalizing r with
  | nil => exact h
  | cons event rest ih => exact ih (r.step event) (step_sendInv r event h)

theorem handleSend_eq_run (σ : ChatState) (result : Except ApiError ChatResponse) (now : Nat) :
    (handleSend σ result now).after
      = (SendRun.run { state := σ } [SendEvent.send, SendEvent.settle result now]).state := by
  by_cases hguard : (!truthyStr (jsTrim σ.input) || σ.loading) = true
  · have hs := handleSendStart_blocked σ hguard
    simp [handleSend, hguard, SendRun.run, SendRun.step, hs]
  · have hs : (handleSendStart σ).2.isEmpty = false := by
      simp only [Bool.not_eq_true] at hguard
      simp only [handleSendStart, hguard, Bool.false_eq_true, if_false, List.isEmpty_cons]
    simp only [Bool.not_eq_true] at hguard
    simp [handleSend, hguard, SendRun.run, SendRun.step, hs]

theorem flagClick_of_answer (σ : ChatState) (i : Nat) (m : Message)
    (hm : σ.messages[i]? = some m) (hrole : m.role = "assistant") (herror : m.error = false) :
    flagClick σ i = handleFlag σ m i := by
  simp [flagClick, hm, hrole, herror]

theorem userQueryAt_append (log more : List Message) (j : Nat) (u : Message)
    (hu : log[j]? = some u) : userQueryAt (log ++ more) (j + 1) = u.content := by
  have hlt : j < log.length := by
    by_contra hge
    rw [List.getElem?_eq_none (Nat.le_of_not_lt hge)] at hu
    cases hu
  simp only [userQueryAt, List.getElem?_append_left hlt, hu]

theorem submitFlag_request (σ : ChatState) (m : Message) (result : Except ApiError Unit)
    (hreason : truthyStr (jsTrim σ.flagReason) = true) (hflagged : σ.flaggedMessage = some m) :
    (submitFlag σ result).effects.head?
      = some (Effect.flagIncorrect (flaggedQuery σ.messages σ.flaggedIndex) m.content
          σ.flagReason σ.sessionId) := by
  cases result <;> simp [submitFlag, hreason, hflagged]

/-- The flag of the second of two equal answers reads the second question: the
position of the flagged object decides, not its value. -/
theorem flagClick_twin_answers :
    (sendState "s1" twinEvents).messages[2]? = (sendState "s1" twinEvents).messages[4]?
    ∧ flaggedQuery (flagClick (sendState "s1" twinEvents) 4).messages
        (flagClick (sendState "s1" twinEvents) 4).flaggedIndex = "And CS 665 next year?"
    ∧ flaggedQuery (flagClick (sendState "s1" twinEvents) 2).messages
        (flagClick (sendState "s1" twinEvents) 2).flaggedIndex = "When is CS 665 offered?" := by
  decide

/-- C30: in every log reached from the greeting alone by sends (a send does
nothing while a previous one is loading or when the trimmed input is empty), with
the answers arriving in any order of events, the first entry is the greeting and
the roles alternate assistant, user, assistant, ...; every assistant entry at an
index `i ≥ 1` has a user entry right before it. The content of that user entry is
the query that `handleFeedback` reads and sends for the entry, and, for an entry
without the error flag (the entries that have the buttons), the query that
`submitFlag` reads and sends after a click on the flag button of the entry, also
when the log has grown since the click. An entry with an id is an assistant entry
without the error flag. -/
theorem send_log_alternates (sessionId : String) (events : List SendEvent) :
    (sendState sessionId events).messages.head? = some greetingMessage
    ∧ RolesAlternate (sendState sessionId events).messages
    ∧ (∀ i m, 1 ≤ i → (sendState sessionId events).messages[i]? = some m →
        m.role = "assistant" →
        ∃ u, (sendState sessionId events).messages[i - 1]? = some u
          ∧ u.role = "user"
          ∧ userQueryAt (sendState sessionId events).messages i = u.content
          ∧ (∀ feedbackType request,
              handleFeedbackStart (sendState sessionId events) m i feedbackType = some request →
              request.query = u.content)
          ∧ (m.error = false →
              (flagClick (sendState sessionId events) i).flaggedMessage = some m
              ∧ (flagClick (sendState sessionId events) i).messages
                  = (sendState sessionId events).messages
              ∧ flaggedQuery (flagClick (sendState sessionId events) i).messages
                  (flagClick (sendState sessionId events) i).flaggedIndex = u.content
              ∧ (∀ more, flaggedQuery ((sendState sessionId events).messages ++ more)
                  (flagClick (sendState sessionId events) i).flaggedIndex = u.content)
              ∧ ∀ reason result, truthyStr (jsTrim reason) = true →
                  (submitFlag { flagClick (sendState sessionId events) i with flagReason := reason }
                      result).effects.head?
                    = some (Effect.flagIncorrect u.content m.content reason sessionId)))
    ∧ IdsOnAnswers (sendState sessionId events).messages := by
  obtain ⟨hhead, hroles, hids, -, -⟩ :=
    run_sendInv events { state := freshChat sessionId } (freshChat_sendInv sessionId)
  have hsession : ∀ (es : List SendEvent) (r : SendRun),
      (r.run es).state.sessionId = r.state.sessionId := by
    intro es
    induction es with
    | nil => intro r; rfl
    | cons e rest ih =>
      intro r
      have hstep : (r.step e).state.sessionId = r.state.sessionId := by
        cases e with
        | typed text => rfl
        | quickQuestion question => rfl
        | suggestedQuestion question => rfl
        | send =>
          simp only [SendRun.step, handleSendStart]
          split <;> rfl
        | settle result now =>
          simp only [SendRun.step]
          split
          · cases result <;> rfl
          · rfl
      exact (ih (r.step e)).trans hstep
  have hsid : (sendState sessionId events).sessionId = sessionId :=
    hsession events { state := freshChat sessionId }
  refine ⟨hhead, hroles, ?_, hids⟩
  intro i m hi hm hrole
  have heven : i % 2 = 0 := by
    by_contra hodd
    have := hroles i m hm
    rw [if_neg hodd, hrole] at this
    exact absurd this (by decide)
  obtain ⟨j, rfl⟩ : ∃ j, i = j + 1 := ⟨i - 1, by omega⟩
  have hlt : j + 1 < (sendState sessionId events).messages.length := by
    by_contra hge
    rw [List.getElem?_eq_none (Nat.le_of_not_lt hge)] at hm
    cases hm
  have hj : j < (sendState sessionId events).messages.length := by
    omega
  have hu : (sendState sessionId events).messages[j]?
      = some ((sendState sessionId events).messages[j]) := List.getElem?_eq_getElem hj
  have hquery : ∀ more, userQueryAt ((sendState sessionId events).messages ++ more) (j + 1)
      = ((sendState sessionId events).messages[j]).content :=
    fun more => userQueryAt_append _ more j _ hu
  have hquery0 : userQueryAt (sendState sessionId events).messages (j + 1)
      = ((sendState sessionId events).messages[j]).content := by
    have := hquery []
    rwa [List.append_nil] at this
  refine ⟨(sendState sessionId events).messages[j], ?_, ?_, hquery0, ?_, ?_⟩
  · simp only [Nat.add_sub_cancel]
    exact hu
  · have := hroles j _ hu
    rw [this, if_neg (by omega)]
  · intro feedbackType request hrequest
    unfold handleFeedbackStart at hrequest
    split at hrequest
    · cases hrequest
    · injection hrequest with hrequest
      rw [← hrequest]
      exact hquery0
  · intro herror
    have hclick := flagClick_of_answer (sendState sessionId events) (j + 1) m hm hrole herror
    refine ⟨?_, ?_, ?_, ?_, ?_⟩
    · rw [hclick]
      rfl
    · rw [hclick]
      rfl
    · rw [hclick]
      exact hquery0
    · intro more
      rw [hclick]
      exact hquery more
    · intro reason result hreason
      have hreq := submitFlag_request
        { flagClick (sendState sessionId events) (j + 1) with flagReason := reason } m result
        hreason (by rw [hclick]; rfl)
      rw [hreq, hclick]
      show some (Effect.flagIncorrect
          (userQueryAt (sendState sessionId events).messages (j + 1)) m.content reason
          (sendState sessionId events).sessionId) = _
      rw [hquery0, hsid]

end StudentChat
